import Mathlib

/-!
Verification of the documix document-conversion pipeline
(`documix/documix.py`) against its natural-language specification.

The development shallowly embeds the conversion dispatch, the fallback
converter chains, the ZIP container expansion, the email-attachment
resolution, the token estimator and the processing-mode selection.

Modelling conventions:
* Python strings are `List Char` (abbreviated `Str`); `str.lower()` is
  `Char.toLower` mapped over the list (the inputs of interest are ASCII).
* Every interaction with the outside world (running an external tool,
  opening and reading a file, creating a temp directory, extracting an
  archive) is collapsed into an oracle value of type `Except Exc α`:
  either the text/result the operation produced, or a raised exception.
  `ExcClass` distinguishes exception classes exactly as far as the
  `except` clauses of the source do: `subprocess.SubprocessError`,
  `FileNotFoundError`, `ValueError`, `zipfile.BadZipFile`, and
  `otherError` for every other exception class a Python runtime can
  raise at those call sites (e.g. `PermissionError`).
* The recursive `process_file` calls made for ZIP entries and email
  attachments are abstracted as per-entry result oracles
  (`Str → Except Exc (Str × Str)`), since their outcomes depend on the
  extracted files; the per-entry `except` handling around them is
  embedded faithfully.
* CPython iterates a `set` of strings in an order that depends on the
  per-process string-hash seed.  `"+".join(set(ms))` is therefore
  embedded with an explicit iteration-order input `setIter`, constrained
  in the theorems to be a permutation of `ms.dedup` (i.e. a duplicate-free
  enumeration of the same elements).
* Timestamps, float formatting (`format_size`, processing time) and the
  html2text body conversion are irrelevant to the claims below and enter
  the embedding as opaque text inputs of the environment.
-/

set_option maxRecDepth 20000

abbrev Str := List Char

/-- Python `str.strip()` whitespace (ASCII subset): space, tab, newline,
carriage return, vertical tab, form feed. -/
def isPySpace (c : Char) : Bool :=
  c = ' ' || c = '\t' || c = '\n' || c = '\r' || c = Char.ofNat 11 || c = Char.ofNat 12

/-- Python `text.strip()`: remove leading and trailing whitespace. -/
def pyStrip (s : Str) : Str :=
  ((s.dropWhile isPySpace).reverse.dropWhile isPySpace).reverse

/-- Worker for `pyTokens`: `cur` holds the current in-progress token, reversed. -/
def pyTokensGo : Str → Str → List Str
  | [], cur => if cur = [] then [] else [cur.reverse]
  | c :: cs, cur =>
    if isPySpace c then
      (if cur = [] then pyTokensGo cs [] else cur.reverse :: pyTokensGo cs [])
    else pyTokensGo cs (c :: cur)

/-- Python `text.split()` with no separator: split on whitespace runs,
dropping empty pieces. -/
def pyTokens (s : Str) : List Str :=
  pyTokensGo s []

/-- The regex check `re.search(r'[.!?]$', t)` applied to an
already-stripped `t` (so no trailing newline can occur): does the text
end in `.`, `!` or `?`. -/
def endsSentencePunct (s : Str) : Bool :=
  match s.getLast? with
  | some c => c = '.' || c = '!' || c = '?'
  | none => false

/-- Embeds `DocumentCompiler.estimate_tokens` (documix.py lines 450-457),
embedded statement for statement: empty-after-strip short-circuits to 0;
otherwise the whitespace token count of the stripped text, plus one if
the stripped text ends in sentence punctuation. -/
def estimate_tokens (text : Str) : Nat :=
  if pyStrip text = [] then 0
  else
    let wordCount := (pyTokens (pyStrip text)).length
    if endsSentencePunct (pyStrip text) then wordCount + 1 else wordCount

/-- The spec's description of the token estimate: "count of
whitespace-delimited tokens in the trimmed text, plus one extra token if
the trimmed text ends in `.`, `!`, or `?`" (spec section 4.5). -/
def estimateTokensSpec (text : Str) : Nat :=
  (pyTokens (pyStrip text)).length +
    (if endsSentencePunct (pyStrip text) then 1 else 0)

/-- Python `os.path.basename` on POSIX: everything after the last slash. -/
def baseName (p : Str) : Str :=
  (p.reverse.takeWhile (fun c => c != '/')).reverse

/-- The extension component of `os.path.splitext` on POSIX: the suffix
starting at the last dot, provided that dot comes after the last slash
and the basename has a non-dot character before it (leading dots of a
basename never begin an extension). -/
def pyExtCore (afterRev : Str) : Str → Str
  | [] => []
  | _ :: beforeRev =>
    if afterRev.contains '/' then []
    else if (beforeRev.takeWhile (fun c => c != '/')).any (fun c => c != '.') then
      '.' :: afterRev.reverse
    else []

def pyExt (p : Str) : Str :=
  pyExtCore (p.reverse.takeWhile (fun c => c != '.'))
    (p.reverse.dropWhile (fun c => c != '.'))

/-- The root component of `os.path.splitext`: the input with its
extension removed. -/
def pyStem (p : Str) : Str :=
  p.take (p.length - (pyExt p).length)

/-- Python `str.lower()` (ASCII). -/
def toLowerStr (s : Str) : Str :=
  s.map Char.toLower

/-- Python `s.endswith(suf)`. -/
def endsWith (suf s : Str) : Bool :=
  List.isSuffixOf suf s

/-- Does `pat` occur as a contiguous substring of `s` (Python `pat in s`). -/
def containsSub (pat s : Str) : Bool :=
  (List.range (s.length + 1)).any (fun i => pat.isPrefixOf (s.drop i))

/-- Number of (possibly overlapping) positions at which `pat` occurs in `s`. -/
def countOccur (pat s : Str) : Nat :=
  (List.range (s.length + 1)).countP (fun i => pat.isPrefixOf (s.drop i))

/-- Python `"+".join(l)`. -/
def joinPlus : List Str → Str
  | [] => []
  | [x] => x
  | x :: y :: rest => x ++ '+' :: joinPlus (y :: rest)

/-- Exception classes, at the granularity distinguished by the `except`
clauses of documix.py.  `otherError` stands for any exception class the
runtime can raise at the embedded call sites that none of the specific
clauses name (for instance `PermissionError` from `subprocess.run` or
`open`). -/
inductive ExcClass where
  | subprocessError
  | fileNotFoundError
  | valueError
  | badZipFile
  | otherError
  deriving DecidableEq

/-- A raised Python exception: its class and its `str(e)` rendering. -/
structure Exc where
  cls : ExcClass
  msg : Str
  deriving DecidableEq

/-- Outcome of an external operation: produced text/value, or a raised
exception. -/
abbrev ExtRes (α : Type) := Except Exc α

instance {ε α : Type} [DecidableEq ε] [DecidableEq α] : DecidableEq (Except ε α) :=
  fun x y =>
    match x, y with
    | Except.ok a, Except.ok b =>
      if h : a = b then isTrue (by rw [h]) else isFalse (by simp [h])
    | Except.ok _, Except.error _ => isFalse (by simp)
    | Except.error _, Except.ok _ => isFalse (by simp)
    | Except.error e, Except.error f =>
      if h : e = f then isTrue (by rw [h]) else isFalse (by simp [h])

/-- Classes caught by `except (subprocess.SubprocessError, FileNotFoundError)`. -/
def caughtToolErr (c : ExcClass) : Bool :=
  c = ExcClass.subprocessError || c = ExcClass.fileNotFoundError

/-- Classes caught by `except (subprocess.SubprocessError, FileNotFoundError,
ValueError)` in `convert_doc_to_text`. -/
def caughtDocErr (c : ExcClass) : Bool :=
  caughtToolErr c || c = ExcClass.valueError

/-- One strategy attempt guarded by
`except (subprocess.SubprocessError, FileNotFoundError)`: success returns
the text with the strategy's tag, a caught failure falls through to
`next`, any other exception propagates. -/
def attemptStep (run : ExtRes Str) (tag : Str) (next : ExtRes (Str × Str)) :
    ExtRes (Str × Str) :=
  match run with
  | Except.ok t => Except.ok (t, tag)
  | Except.error e => if caughtToolErr e.cls then next else Except.error e

/-- Environment of `convert_pdf_to_text`: the cached uvx probe and the
collapsed outcome of each of the three strategies (temp file + subprocess
+ read of the produced file). -/
structure PdfEnv where
  uvxAvailable : Bool
  uvxRun : ExtRes Str
  mdRun : ExtRes Str
  pdftotextRun : ExtRes Str

def pdfFailText (filepath : Str) : Str :=
  "[Failed to convert PDF file: ".toList ++ baseName filepath ++ "]".toList

/-- Embeds `DocumentCompiler.convert_pdf_to_text` (lines 486-543): uvx markitdown
(only if uvx is available), then markitdown, then pdftotext, then the
failure placeholder. -/
def convert_pdf_to_text (env : PdfEnv) (filepath : Str) : ExtRes (Str × Str) :=
  let exhausted := Except.ok (pdfFailText filepath, "failed".toList)
  let third := attemptStep env.pdftotextRun ("pdftotext".toList) exhausted
  let second := attemptStep env.mdRun ("markitdown".toList) third
  if env.uvxAvailable then attemptStep env.uvxRun ("markitdown-uvx".toList) second
  else second

def epubFailText (filepath : Str) : Str :=
  "[Failed to convert EPUB file: ".toList ++ baseName filepath ++ "]".toList

/-- Embeds `DocumentCompiler.convert_epub_to_text` (lines 545-566): single
ebook-convert attempt, then the failure placeholder. -/
def convert_epub_to_text (run : ExtRes Str) (filepath : Str) : ExtRes (Str × Str) :=
  attemptStep run ("ebook-convert".toList)
    (Except.ok (epubFailText filepath, "failed".toList))

/-- Environment of `convert_docx_to_text`: the pandoc outcome, whether the
docx2txt library imported, and the docx2txt call outcome (its `except
Exception` absorbs every class). -/
structure DocxEnv where
  pandocRun : ExtRes Str
  docx2txtAvailable : Bool
  docx2txtRun : ExtRes Str

def docxFailText (filepath : Str) : Str :=
  "[Failed to convert DOCX file: ".toList ++ baseName filepath ++ "]".toList

/-- Embeds `DocumentCompiler.convert_docx_to_text` (lines 568-616): pandoc first;
on a caught failure, docx2txt if available and only if its output strips
to non-empty; otherwise the failure placeholder. -/
def convert_docx_to_text (env : DocxEnv) (filepath : Str) : ExtRes (Str × Str) :=
  match env.pandocRun with
  | Except.ok t => Except.ok (t, "pandoc".toList)
  | Except.error e =>
    if caughtToolErr e.cls then
      if env.docx2txtAvailable then
        match env.docx2txtRun with
        | Except.ok t =>
          if pyStrip t = [] then Except.ok (docxFailText filepath, "failed".toList)
          else Except.ok (t, "docx2txt".toList)
        | Except.error _ => Except.ok (docxFailText filepath, "failed".toList)
      else Except.ok (docxFailText filepath, "failed".toList)
    else Except.error e

/-- Environment of `convert_doc_to_text`: the temp-dir preparation steps
(mkdtemp, copy, existence and non-emptiness checks, which raise
`FileNotFoundError` and `ValueError`), the soffice invocation, whether
the expected `.docx` output file appeared, the temp directory name, and
the environment for the nested DOCX chain. -/
structure DocEnv where
  prep : ExtRes Unit
  sofficeRun : ExtRes Unit
  outputExists : Bool
  tempDir : Str
  docx : DocxEnv

def docFailText (filepath : Str) : Str :=
  "[Failed to convert DOC file: ".toList ++ baseName filepath ++ "]".toList

/-- The bridged output path `os.path.join(temp_dir, stem + ".docx")`. -/
def docOutputPath (env : DocEnv) (filepath : Str) : Str :=
  env.tempDir ++ '/' :: pyStem (baseName filepath) ++ ".docx".toList

/-- Embeds `DocumentCompiler.convert_doc_to_text` (lines 618-674): bridge the DOC
to DOCX via soffice inside a `try` catching `(SubprocessError,
FileNotFoundError, ValueError)`, reporting the missing output file as a
caught `FileNotFoundError`; on success re-enter the DOCX chain on the
bridged file and return its text under `"soffice+" + docx_method`. -/
def convert_doc_to_text (env : DocEnv) (filepath : Str) : ExtRes (Str × Str) :=
  let fail := Except.ok (docFailText filepath, "failed".toList)
  match env.prep with
  | Except.error e => if caughtDocErr e.cls then fail else Except.error e
  | Except.ok _ =>
    match env.sofficeRun with
    | Except.error e => if caughtDocErr e.cls then fail else Except.error e
    | Except.ok _ =>
      if env.outputExists then
        match convert_docx_to_text env.docx (docOutputPath env filepath) with
        | Except.ok (t, m) => Except.ok (t, "soffice+".toList ++ m)
        | Except.error e => if caughtDocErr e.cls then fail else Except.error e
      else fail

/-- Environment of `convert_rtf_to_text`: pandoc, unrtf, and the striprtf
attempt (whose `except ImportError` / `except Exception` clauses absorb
every class). -/
structure RtfEnv where
  pandocRun : ExtRes Str
  unrtfRun : ExtRes Str
  striprtfRun : ExtRes Str

def rtfFailText (filepath : Str) : Str :=
  "[Failed to convert RTF file: ".toList ++ baseName filepath ++ "]".toList

/-- Embeds `DocumentCompiler.convert_rtf_to_text` (lines 676-734): pandoc, then
unrtf (both guarded by the two-class clause), then striprtf (all failures
absorbed), then the failure placeholder. -/
def convert_rtf_to_text (env : RtfEnv) (filepath : Str) : ExtRes (Str × Str) :=
  let exhausted := Except.ok (rtfFailText filepath, "failed".toList)
  let third :=
    match env.striprtfRun with
    | Except.ok t => Except.ok (t, "striprtf".toList)
    | Except.error _ => exhausted
  let second := attemptStep env.unrtfRun ("unrtf".toList) third
  attemptStep env.pandocRun ("pandoc".toList) second

def txtFailText (filepath : Str) : Str :=
  "[Failed to read file: ".toList ++ baseName filepath ++ "]".toList

/-- Embeds `DocumentCompiler.convert_txt_to_text` (lines 736-749): a permissive
direct read; its `except Exception` absorbs every class, so the function
is total. -/
def convert_txt_to_text (run : ExtRes Str) (filepath : Str) : Str × Str :=
  match run with
  | Except.ok t => (t, "direct_read".toList)
  | Except.error _ => (txtFailText filepath, "failed".toList)

/-- The extension-to-language table of `get_file_language` (lines 413-448). -/
def langTable : List (Str × Str) :=
  [ (r".py".toList, r"python".toList)
  , (r".rb".toList, r"ruby".toList)
  , (r".js".toList, r"javascript".toList)
  , (r".html".toList, r"html".toList)
  , (r".css".toList, r"css".toList)
  , (r".json".toList, r"json".toList)
  , (r".yml".toList, r"yaml".toList)
  , (r".yaml".toList, r"yaml".toList)
  , (r".md".toList, r"markdown".toList)
  , (r".txt".toList, r"text".toList)
  , (r".sh".toList, r"bash".toList)
  , (r".java".toList, r"java".toList)
  , (r".c".toList, r"c".toList)
  , (r".cpp".toList, r"cpp".toList)
  , (r".h".toList, r"c".toList)
  , (r".php".toList, r"php".toList)
  , (r".sql".toList, r"sql".toList)
  , (r".xml".toList, r"xml".toList)
  , (r".go".toList, r"go".toList)
  , (r".rs".toList, r"rust".toList)
  , (r".ts".toList, r"typescript".toList)
  , (r".swift".toList, r"swift".toList)
  , (r".kt".toList, r"kotlin".toList)
  , (r".dart".toList, r"dart".toList)
  , (r".pl".toList, r"perl".toList)
  , (r".r".toList, r"r".toList)
  , (r".lua".toList, r"lua".toList)
  , (r".scala".toList, r"scala".toList)
  , (r".cs".toList, r"csharp".toList)
  , (r".vb".toList, r"vb".toList) ]

/-- Embeds `DocumentCompiler.get_file_language`: `languages.get(splitext(path.lower())[1], '')`. -/
def get_file_language (p : Str) : Str :=
  (langTable.lookup (pyExt (toLowerStr p))).getD []

/-- The default `include_extensions` list of the compiler (lines 283-284). -/
def defaultIncludeExtensions : List Str :=
  [ r".pdf".toList, r".epub".toList, r".docx".toList, r".doc".toList
  , r".rtf".toList, r".txt".toList, r".md".toList, r".py".toList
  , r".rb".toList, r".js".toList, r".html".toList, r".css".toList
  , r".json".toList, r".yml".toList, r".yaml".toList, r".zip".toList
  , r".eml".toList ]

/-- Is the (lower-cased) extension of `n` in the include list (`ext in
self.include_extensions`). -/
def extIncluded (exts : List Str) (n : Str) : Bool :=
  decide (pyExt (toLowerStr n) ∈ exts)

/-- Environment of `extract_zip`: the collapsed outcome of mkdtemp plus
`ZipFile(...).extractall` (a `BadZipFile` error models a malformed
archive), the relative entry paths produced by `os.walk` in
filesystem-dependent order, the per-entry outcome of the recursive
`process_file` call on the extracted entry, and the iteration order
CPython uses for `set(extraction_methods)`. -/
structure ZipEnv where
  prep : ExtRes Unit
  names : List Str
  result : Str → ExtRes (Str × Str)
  setIter : List Str

/-- The lexicographic `file_list.sort()` of `extract_zip`. -/
def sortNames (names : List Str) : List Str :=
  List.insertionSort (fun a b : Str => a ≤ b) names

/-- The archive-listing prefix of the ZIP summary: title line plus one
bullet per (sorted) entry. -/
def zipListingText (filepath : Str) (sorted : List Str) : Str :=
  "# ZIP Archive Contents: ".toList ++ baseName filepath ++
    "\n\n## Files in archive:\n\n".toList ++
    (sorted.map (fun f => "- ".toList ++ f ++ "\n".toList)).flatten

/-- A fenced code block, labeled when a language is known:
the f-string `f"```{lang}\n{content}\n```\n\n"` (or its unlabeled form). -/
def fencedBlock (lang content : Str) : Str :=
  if lang = [] then "```\n".toList ++ content ++ "\n```\n\n".toList
  else "```".toList ++ lang ++ '\n' :: content ++ "\n```\n\n".toList

/-- The per-entry portion of the ZIP summary (lines 786-806): entries
whose extension is not included contribute nothing; an included entry
contributes its header plus either the fenced content or, when the
recursive call raised, the inline error note (the per-entry `except
Exception` catches every class). -/
def zipEntrySection (exts : List Str) (result : Str → ExtRes (Str × Str))
    (entry : Str) : Str :=
  if extIncluded exts entry then
    "### File: ".toList ++ entry ++ "\n\n".toList ++
      (match result entry with
       | Except.ok pr => fencedBlock (get_file_language entry) pr.fst
       | Except.error e => "[Error processing file: ".toList ++ e.msg ++ "]\n\n".toList)
  else []

/-- The `extraction_methods` list: methods of included entries whose
recursive processing did not raise, in sorted entry order. -/
def zipMethods (exts : List Str) (env : ZipEnv) : List Str :=
  (sortNames env.names).filterMap
    (fun n =>
      if extIncluded exts n then
        match env.result n with
        | Except.ok pr => some pr.snd
        | Except.error _ => none
      else none)

/-- The full ZIP summary text for a successfully extracted archive. -/
def zipBodyText (exts : List Str) (env : ZipEnv) (filepath : Str) : Str :=
  zipListingText filepath (sortNames env.names) ++
    "\n## Extracted file contents:\n\n".toList ++
    ((sortNames env.names).map (zipEntrySection exts env.result)).flatten

/-- Embeds `DocumentCompiler.extract_zip` (lines 751-817).  A `BadZipFile` during
extraction yields `failed-bad_zip`; any other exception there yields
`failed-exception`; otherwise the summary text together with
`"zip_extract+" + "+".join(set(extraction_methods))`, the set iterated
in the order `env.setIter`. -/
def extract_zip (exts : List Str) (env : ZipEnv) (filepath : Str) : Str × Str :=
  match env.prep with
  | Except.error e =>
    if e.cls = ExcClass.badZipFile then
      ("[Error: ".toList ++ baseName filepath ++ " is not a valid ZIP file]".toList,
        "failed-bad_zip".toList)
    else
      ("[Error processing ZIP file: ".toList ++ e.msg ++ "]".toList,
        "failed-exception".toList)
  | Except.ok _ =>
    (zipBodyText exts env filepath, "zip_extract+".toList ++ joinPlus env.setIter)

/-- States that `env.setIter` is a faithful CPython set iteration of `ms`: some
duplicate-free enumeration of exactly the elements of `ms`. -/
abbrev IsSetIter (iter ms : List Str) : Prop :=
  iter.Perm ms.dedup

/-- An attachment record `{filename, path, size}`. -/
structure Attachment where
  filename : Str
  path : Str
  size : Nat
  deriving DecidableEq

/-- The filesystem surroundings of an email message and its MIME
attachment parts: the directory of the message, the sibling directories
that exist (each with the regular files it contains, as filename/size
pairs), and the MIME parts whose `Content-Disposition` contains
"attachment" and that carry a filename (with the size each would have
once written out). -/
structure EmailFS where
  emailDir : Str
  sibling : List (Str × List (Str × Nat))
  mime : List (Str × Nat)

/-- The candidate folder names probed by `_auto_detect_attachments`
(lines 47-57), in order. -/
def attachmentDirNames : List Str :=
  [ r"attachments".toList, r"Attachments".toList
  , r"attachment".toList, r"Attachment".toList ]

/-- Embeds `_auto_detect_attachments`: the first candidate name that exists as a
sibling directory. -/
def autoDetectName (fs : EmailFS) : Option Str :=
  attachmentDirNames.find? (fun n => (fs.sibling.lookup n).isSome)

/-- Python `os.path.join(email_dir, name)`. -/
def dirPath (fs : EmailFS) (n : Str) : Str :=
  fs.emailDir ++ '/' :: n

/-- Embeds `_check_attachments_folder` (lines 59-76): the regular files of the
auto-detected folder, as attachment records; empty when no folder was
detected or the folder holds no files. -/
def folderFiles (fs : EmailFS) : List Attachment :=
  match autoDetectName fs with
  | none => []
  | some n =>
    ((fs.sibling.lookup n).getD []).map
      (fun p => ⟨p.fst, dirPath fs n ++ '/' :: p.fst, p.snd⟩)

/-- Embeds `extract_attachments_from_email` (lines 110-144): every qualifying
MIME part is written into the detected folder (or a default
`attachments` folder next to the message) and recorded. -/
def extractedAttachments (fs : EmailFS) : List Attachment :=
  let d :=
    match autoDetectName fs with
    | some n => dirPath fs n
    | none => dirPath fs ("attachments".toList)
  fs.mime.map (fun p => ⟨p.fst, d ++ '/' :: p.fst, p.snd⟩)

/-- Result of attachment resolution: the attachment list, the
`attachments_source` metadata value, and whether the MIME extraction
path ran. -/
structure AttachResolution where
  attachments : List Attachment
  source : Str
  ranMimeExtraction : Bool
  deriving DecidableEq

/-- Embeds `EmailProcessor.process_attachments` (lines 146-159): if the detected
folder holds files they are used verbatim with source `Local folder`;
otherwise the MIME parts are extracted with source `Extracted from
email`. -/
def process_attachments (fs : EmailFS) : AttachResolution :=
  let ff := folderFiles fs
  if ff = [] then
    ⟨extractedAttachments fs, "Extracted from email".toList, true⟩
  else
    ⟨ff, "Local folder".toList, false⟩

/-- An ASCII single-quote character (written numerically so the source
f-string quotes can be reproduced). -/
def quoteCh : Char := Char.ofNat 39

/-- The note emitted for an attachment that is not processed:
`f"[Attachment type '{ext}' not supported for extraction]\n\n"`. -/
def unsupportedAttachmentNote (ext : Str) : Str :=
  "[Attachment type ".toList ++ quoteCh :: ext ++
    quoteCh :: " not supported for extraction]\n\n".toList

/-- One attachment subsection of `process_email` (lines 961-984): the
numbered header, then either the re-dispatched content (attachments whose
extension is included and is not `.eml`; a raised exception is caught and
rendered inline) or the unsupported-type note. -/
def attachment_section (exts : List Str) (dispatch : Str → ExtRes (Str × Str))
    (fmtSize : Nat → Str) (i : Nat) (att : Attachment) : Str :=
  let hdr := "### ".toList ++ (toString i).toList ++ ". ".toList ++ att.filename ++
    " (".toList ++ fmtSize att.size ++ ")\n\n".toList
  let ext := pyExt (toLowerStr att.path)
  if ext ∈ exts ∧ ext ≠ ".eml".toList then
    hdr ++
      (match dispatch att.path with
       | Except.ok pr => fencedBlock (get_file_language att.path) pr.fst
       | Except.error e =>
         "[Error processing attachment: ".toList ++ e.msg ++ "]\n\n".toList)
  else hdr ++ unsupportedAttachmentNote ext

/-- The attachment loop `for i, attachment in enumerate(attachments, 1)`. -/
def attachmentSectionsFrom (exts : List Str) (dispatch : Str → ExtRes (Str × Str))
    (fmtSize : Nat → Str) : Nat → List Attachment → Str
  | _, [] => []
  | i, a :: rest =>
    attachment_section exts dispatch fmtSize i a ++
      attachmentSectionsFrom exts dispatch fmtSize (i + 1) rest

/-- Python `source.lower().replace(' ', '_')`. -/
def underscoreLower (s : Str) : Str :=
  (toLowerStr s).map (fun c => if c = ' ' then '_' else c)

/-- Total attachment size `sum(att['size'] for att in attachments)`. -/
def sumSizes (atts : List Attachment) : Nat :=
  (atts.map Attachment.size).sum

/-- The trailing statistics block of `process_email` (lines 986-992);
the processing-time rendering is an opaque input. -/
def emailStatsBlock (fmtSize : Nat → Str) (timeText : Str)
    (atts : List Attachment) : Str :=
  "\n---\n## Statistics\n- Total attachments: ".toList ++
    (toString atts.length).toList ++ '\n' ::
    (if atts = [] then [] else
      "- Total size: ".toList ++ fmtSize (sumSizes atts) ++ "\n".toList) ++
    "- Processing time: ".toList ++ timeText ++ "\n".toList

/-- Environment of `process_email`: the collapsed outcome of the steps of
its `try` body before parsing (its `except Exception` absorbs every
class), the `parse_email` boolean, the text `compile_output` assembled
(headers, converted body, attachment summary — opaque to the claims), the
filesystem surroundings, the recursive dispatch oracle for attachments,
and the opaque float renderings. -/
structure EmailRunEnv where
  prep : ExtRes Unit
  parseOk : Bool
  compiledHead : Str
  fs : EmailFS
  dispatch : Str → ExtRes (Str × Str)
  fmtSize : Nat → Str
  timeText : Str

/-- Embeds `DocumentCompiler.process_email` (lines 913-1000), projected to the
returned `(content, method)` pair: parse failures yield `failed-parse`,
any exception of the body yields `failed-exception`, and otherwise the
compiled text plus attachment subsections plus statistics is returned
under `"email+" + attachments_source.lower().replace(' ', '_')`. -/
def process_email (exts : List Str) (env : EmailRunEnv) (filepath : Str) :
    Str × Str :=
  match env.prep with
  | Except.error e =>
    ("[Error processing email file: ".toList ++ e.msg ++ "]".toList,
      "failed-exception".toList)
  | Except.ok _ =>
    if env.parseOk then
      let res := process_attachments env.fs
      let atts := res.attachments
      let content :=
        env.compiledHead ++
          (if atts = [] then [] else
            '\n' :: attachmentSectionsFrom exts env.dispatch env.fmtSize 1 atts) ++
          emailStatsBlock env.fmtSize env.timeText atts
      (content, "email+".toList ++ underscoreLower res.source)
    else
      ("[Failed to parse email file: ".toList ++ baseName filepath ++ "]".toList,
        "failed-parse".toList)

/-- The combined environment of one `process_file` dispatch. -/
structure FileEnv where
  pdf : PdfEnv
  epubRun : ExtRes Str
  docx : DocxEnv
  doc : DocEnv
  rtf : RtfEnv
  txtRun : ExtRes Str
  zip : ZipEnv
  eml : EmailRunEnv

/-- Embeds `DocumentCompiler.process_file` (lines 1002-1022): route on the
lower-cased extension; `.zip`, `.eml` and the text default are total,
the five converter chains may propagate an uncaught exception class. -/
def process_file (exts : List Str) (env : FileEnv) (filePath : Str) :
    ExtRes (Str × Str) :=
  let ext := pyExt (toLowerStr filePath)
  if ext = ".pdf".toList then convert_pdf_to_text env.pdf filePath
  else if ext = ".epub".toList then convert_epub_to_text env.epubRun filePath
  else if ext = ".docx".toList then convert_docx_to_text env.docx filePath
  else if ext = ".doc".toList then convert_doc_to_text env.doc filePath
  else if ext = ".rtf".toList then convert_rtf_to_text env.rtf filePath
  else if ext = ".zip".toList then Except.ok (extract_zip exts env.zip filePath)
  else if ext = ".eml".toList then Except.ok (process_email exts env.eml filePath)
  else Except.ok (convert_txt_to_text env.txtRun filePath)

/-- The auto-detection half of `detect_processing_mode`:
`len(files) == 1 and files[0].lower().endswith('.eml')`. -/
def detectAutoMode (files : List Str) : Str :=
  match files with
  | [f] =>
    if endsWith (".eml".toList) (toLowerStr f) then "single_email".toList
    else "standard".toList
  | _ => "standard".toList

/-- Embeds `DocumentCompiler.detect_processing_mode` (lines 352-362).  The forced
format is consulted by Python truthiness (`if self.force_format:`), so a
supplied empty string behaves like no forced format. -/
def detect_processing_mode (forceFormat : Option Str) (files : List Str) : Str :=
  match forceFormat with
  | some m => if m = [] then detectAutoMode files else m
  | none => detectAutoMode files

/-- Python `m.startswith(p)`. -/
def startsWith (p s : Str) : Bool :=
  p.isPrefixOf s

/-- The text is a non-empty bracketed placeholder: it starts with `[` and
ends with `]`. -/
def BracketedPlaceholder (t : Str) : Prop :=
  t ≠ [] ∧ t.head? = some '[' ∧ t.getLast? = some ']'

/-- The text references `name` (it occurs as a contiguous substring). -/
def MentionsName (name t : Str) : Prop :=
  containsSub name t = true

/-- The operation either succeeded or raised a class satisfying `caught`. -/
def resCaught {α : Type} (caught : ExcClass → Bool) : ExtRes α → Bool
  | Except.ok _ => true
  | Except.error e => caught e.cls

/-- The operation raised, with a class satisfying `caught`. -/
def resFailedCaught {α : Type} (caught : ExcClass → Bool) : ExtRes α → Bool
  | Except.ok _ => false
  | Except.error e => caught e.cls

def isOkRes {α : Type} : ExtRes α → Bool
  | Except.ok _ => true
  | Except.error _ => false

def isErrRes {α : Type} : ExtRes α → Bool
  | Except.ok _ => false
  | Except.error _ => true

/-- Every failure the PDF chain meets carries one of the two exception
classes its `except` clauses name. -/
def benignPdfEnv (env : PdfEnv) : Bool :=
  (!env.uvxAvailable || resCaught caughtToolErr env.uvxRun) &&
    resCaught caughtToolErr env.mdRun && resCaught caughtToolErr env.pdftotextRun

def benignDocxEnv (env : DocxEnv) : Bool :=
  resCaught caughtToolErr env.pandocRun

/-- Every failure the DOC chain (including its nested DOCX pandoc call)
meets carries a class some enclosing `except` clause names. -/
def benignDocEnv (env : DocEnv) : Bool :=
  resCaught caughtDocErr env.prep && resCaught caughtDocErr env.sofficeRun &&
    resCaught caughtDocErr env.docx.pandocRun

def benignRtfEnv (env : RtfEnv) : Bool :=
  resCaught caughtToolErr env.pandocRun && resCaught caughtToolErr env.unrtfRun

/-- All chains of the dispatch meet only exception classes their `except`
clauses catch (the `.zip`, `.eml` and plain-text branches catch every
class and need no condition). -/
def benignFileEnv (env : FileEnv) : Bool :=
  benignPdfEnv env.pdf && resCaught caughtToolErr env.epubRun &&
    benignDocxEnv env.docx && benignDocEnv env.doc && benignRtfEnv env.rtf

/-- Every attempted PDF strategy failed with a caught class. -/
def pdfExhausted (env : PdfEnv) : Bool :=
  (!env.uvxAvailable || resFailedCaught caughtToolErr env.uvxRun) &&
    resFailedCaught caughtToolErr env.mdRun &&
    resFailedCaught caughtToolErr env.pdftotextRun

/-- The docx2txt fallback does not rescue the conversion: the library is
unavailable, or it raised, or its output strips to empty. -/
def docx2txtNoRescue (env : DocxEnv) : Bool :=
  !env.docx2txtAvailable ||
    (match env.docx2txtRun with
     | Except.ok t => (pyStrip t).isEmpty
     | Except.error _ => true)

/-- Every DOCX strategy failed: pandoc failed with a caught class and
docx2txt does not rescue. -/
def docxExhausted (env : DocxEnv) : Bool :=
  resFailedCaught caughtToolErr env.pandocRun && docx2txtNoRescue env

/-- Every RTF strategy failed with a caught (or absorbed) failure. -/
def rtfExhausted (env : RtfEnv) : Bool :=
  resFailedCaught caughtToolErr env.pandocRun &&
    resFailedCaught caughtToolErr env.unrtfRun && isErrRes env.striprtfRun

/-- The soffice bridge of the DOC chain ran to completion and produced
the expected output file. -/
def docBridgeOk (env : DocEnv) : Bool :=
  isOkRes env.prep && isOkRes env.sofficeRun && env.outputExists

/-- The soffice bridge failed with a caught class (preparation failure,
soffice failure, or missing output file). -/
def docBridgeFailedCaught (env : DocEnv) : Bool :=
  resFailedCaught caughtDocErr env.prep ||
    (isOkRes env.prep && resFailedCaught caughtDocErr env.sofficeRun) ||
    (isOkRes env.prep && isOkRes env.sofficeRun && !env.outputExists)

/-- A `PermissionError`-style exception: a class none of the chain
`except` clauses name. -/
def permExc : Exc :=
  ⟨ExcClass.otherError, "Permission denied".toList⟩

def emptyFS : EmailFS :=
  ⟨[], [], []⟩

def dummyDocxEnv : DocxEnv :=
  ⟨Except.ok ("docx text".toList), false, Except.ok []⟩

def dummyDocEnv : DocEnv :=
  ⟨Except.ok (), Except.ok (), true, "/tmp/conv".toList, dummyDocxEnv⟩

def dummyRtfEnv : RtfEnv :=
  ⟨Except.ok ("rtf text".toList), Except.ok [], Except.ok []⟩

def dummyZipEnv : ZipEnv :=
  ⟨Except.ok (), [], fun _ => Except.ok ([], "direct_read".toList), []⟩

def dummyEmailEnv : EmailRunEnv :=
  ⟨Except.ok (), true, "head".toList, emptyFS,
    fun _ => Except.ok ([], "direct_read".toList), fun _ => [], "0.01s".toList⟩

/-- A PDF environment in which uvx is unavailable and the markitdown
invocation raises `PermissionError` (binary present but not executable):
a class `except (subprocess.SubprocessError, FileNotFoundError)` does not
catch. -/
def raisePdfEnv : PdfEnv :=
  ⟨false, Except.ok [], Except.error permExc, Except.ok ("page".toList)⟩

def exC1Env : FileEnv :=
  ⟨raisePdfEnv, Except.ok ("epub text".toList), dummyDocxEnv, dummyDocEnv,
    dummyRtfEnv, Except.ok ("file text".toList), dummyZipEnv, dummyEmailEnv⟩

def exC1Path : Str :=
  "report.pdf".toList

/-- A fully benign dispatch environment (every external tool succeeds). -/
def benignPdfEnvEx : PdfEnv :=
  ⟨true, Except.ok ("pdf md".toList), Except.ok [], Except.ok []⟩

def benignFileEnvEx : FileEnv :=
  ⟨benignPdfEnvEx, Except.ok ("epub text".toList), dummyDocxEnv, dummyDocEnv,
    dummyRtfEnv, Except.ok ("file text".toList), dummyZipEnv, dummyEmailEnv⟩

/-- A ZIP whose extraction raises an exception other than `BadZipFile`,
with a message that does not mention the archive name. -/
def exC3ZipEnv : ZipEnv :=
  ⟨Except.error ⟨ExcClass.otherError, "disk full".toList⟩, [],
    fun _ => Except.ok ([], []), []⟩

def exC3Path : Str :=
  "mail/archive.zip".toList

def exC3WitnessPath : Str :=
  "scan.pdf".toList

/-- A PDF environment with every strategy failing on a caught class. -/
def exhaustedPdfEnv : PdfEnv :=
  ⟨true, Except.error ⟨ExcClass.fileNotFoundError, []⟩,
    Except.error ⟨ExcClass.subprocessError, []⟩,
    Except.error ⟨ExcClass.fileNotFoundError, []⟩⟩

/-- Per-entry results for the C4 scenario: two plain-text entries read
directly, one DOCX entry converted externally via pandoc. -/
def exC4Result (n : Str) : ExtRes (Str × Str) :=
  if n = "a.txt".toList then Except.ok ("alpha".toList, "direct_read".toList)
  else if n = "b.txt".toList then Except.ok ("beta".toList, "direct_read".toList)
  else Except.ok ("gamma".toList, "pandoc".toList)

def exC4Env (iter : List Str) : ZipEnv :=
  ⟨Except.ok (), [r"a.txt".toList, r"b.txt".toList, r"c.docx".toList],
    exC4Result, iter⟩

def exC4Path : Str :=
  "bundle.zip".toList

/-- The `extraction_methods` list of the C4 scenario (independent of the
set-iteration order). -/
def msC4 : List Str :=
  zipMethods defaultIncludeExtensions (exC4Env [])

/-- Per-entry results for the C5 scenario: two entries with two distinct
methods. -/
def exC5Result (n : Str) : ExtRes (Str × Str) :=
  if n = "a.txt".toList then Except.ok ("alpha".toList, "direct_read".toList)
  else Except.ok ("bravo".toList, "pandoc".toList)

def exC5Env (iter : List Str) : ZipEnv :=
  ⟨Except.ok (), [r"a.txt".toList, r"b.docx".toList], exC5Result, iter⟩

def exC5Path : Str :=
  "pair.zip".toList

def msC5 : List Str :=
  zipMethods defaultIncludeExtensions (exC5Env [])

def iterDP : List Str :=
  [r"direct_read".toList, r"pandoc".toList]

def iterPD : List Str :=
  [r"pandoc".toList, r"direct_read".toList]

/-- An email directory in which the first existing candidate folder
(`attachments`) is empty while another candidate (`Attachment`) holds a
file, and the message also carries a MIME attachment part. -/
def exC6FS : EmailFS :=
  ⟨ "/mail".toList
  , [ (r"attachments".toList, []), (r"Attachment".toList, [(r"cv.pdf".toList, 100)]) ]
  , [(r"inline.png".toList, 5)] ⟩

/-- An email directory whose first existing candidate folder is non-empty,
with MIME parts also present. -/
def exC6GoodFS : EmailFS :=
  ⟨ "/mail".toList
  , [ (r"attachments".toList, [(r"cv.pdf".toList, 100)]) ]
  , [(r"inline.png".toList, 5)] ⟩

/-- A DOCX environment in which pandoc fails (caught) and docx2txt is
unavailable: the DOCX chain is exhausted. -/
def exC7DocxEnv : DocxEnv :=
  ⟨Except.error ⟨ExcClass.fileNotFoundError, []⟩, false, Except.ok []⟩

/-- A DOC environment whose soffice bridge succeeds while the nested DOCX
chain is exhausted. -/
def exC7DocEnv : DocEnv :=
  ⟨Except.ok (), Except.ok (), true, "/tmp/t1".toList, exC7DocxEnv⟩

def exC7Path : Str :=
  "old.doc".toList

def exC9Att : Attachment :=
  ⟨"fwd.eml".toList, "mail/attachments/fwd.eml".toList, 7⟩

def dispatchOkEx : Str → ExtRes (Str × Str) :=
  fun _ => Except.ok ("body".toList, "direct_read".toList)

def dispatchErrEx : Str → ExtRes (Str × Str) :=
  fun _ => Except.error permExc

/-- A valid archive none of whose entries has an included extension. -/
def exC10Env : ZipEnv :=
  ⟨Except.ok (), [r"data.bin".toList, r"img.jpeg".toList],
    fun _ => Except.ok ([], []), []⟩

def exC10Path : Str :=
  "raw.zip".toList

/-- Claim C2: the token estimator returns 0, 2, 3, 8 on the four spec
examples, and in general equals the count of whitespace-delimited tokens
of the trimmed text plus one exactly when the trimmed text ends in `.`,
`!` or `?`. -/
theorem claim_C2 :
    (∀ s : Str, estimate_tokens s = estimateTokensSpec s) ∧
    estimate_tokens ("".toList) = 0 ∧
    estimate_tokens ("Hello world".toList) = 2 ∧
    estimate_tokens ("Hello, world!".toList) = 3 ∧
    estimate_tokens ("This is a test. With two sentences.".toList) = 8 := by
  refine ⟨?_, by decide, by decide, by decide, by decide⟩
  intro s
  unfold estimate_tokens estimateTokensSpec
  by_cases h : pyStrip s = []
  · simp [h, pyTokens, pyTokensGo, endsSentencePunct]
  · cases hp : endsSentencePunct (pyStrip s) <;> simp [h, hp]

/-- Claim C9: an attachment whose extension is `.eml` is never
re-dispatched (the produced section does not depend on the dispatch
oracle at all) and its section ends with the unsupported-type note. -/
theorem claim_C9 :
    ∀ (exts : List Str) (d1 d2 : Str → ExtRes (Str × Str)) (fmt : Nat → Str)
      (i : Nat) (att : Attachment),
    pyExt (toLowerStr att.path) = ".eml".toList →
    attachment_section exts d1 fmt i att = attachment_section exts d2 fmt i att ∧
    ∃ pre, attachment_section exts d1 fmt i att =
      pre ++ unsupportedAttachmentNote (".eml".toList) := by
  intro exts d1 d2 fmt i att h
  have hcond : ¬(".eml".toList ∈ exts ∧ ".eml".toList ≠ ".eml".toList) := by
    rintro ⟨-, hne⟩
    exact hne rfl
  unfold attachment_section
  rw [h, if_neg hcond, if_neg hcond]
  exact ⟨rfl, _, rfl⟩

/-- Claim C9 witness: a concrete `.eml` attachment produces the same
section under two different dispatch oracles, ending with the note. -/
theorem claim_C9_witness :
    attachment_section defaultIncludeExtensions dispatchOkEx (fun _ => []) 1 exC9Att =
      attachment_section defaultIncludeExtensions dispatchErrEx (fun _ => []) 1 exC9Att ∧
    ∃ pre, attachment_section defaultIncludeExtensions dispatchOkEx (fun _ => []) 1 exC9Att =
      pre ++ unsupportedAttachmentNote (".eml".toList) :=
  claim_C9 defaultIncludeExtensions dispatchOkEx dispatchErrEx (fun _ => []) 1 exC9Att
    (by decide)

/-- Claim C6 counterexample: the message directory holds a non-empty
sibling folder named `Attachment` (and MIME parts), yet resolution
extracts from the email, because the empty folder `attachments` is
auto-detected first. -/
theorem claim_C6_counterexample :
    exC6FS.sibling.lookup (r"Attachment".toList) = some [(r"cv.pdf".toList, 100)] ∧
    exC6FS.mime ≠ [] ∧
    process_attachments exC6FS =
      ⟨[⟨r"inline.png".toList, "/mail/attachments/inline.png".toList, 5⟩],
        "Extracted from email".toList, true⟩ ∧
    "Extracted from email".toList ≠ "Local folder".toList := by
  decide

/-- Claim C6 (amended): when the first existing candidate folder is the
one that is non-empty, its files are used verbatim, the source is
`Local folder` and no MIME part is extracted; and on every message the
two resolution paths are mutually exclusive. -/
theorem claim_C6_amended :
    (∀ (fs : EmailFS) (n : Str) (files : List (Str × Nat)),
      autoDetectName fs = some n →
      fs.sibling.lookup n = some files →
      files ≠ [] →
      process_attachments fs =
        ⟨files.map (fun p => ⟨p.fst, dirPath fs n ++ '/' :: p.fst, p.snd⟩),
          "Local folder".toList, false⟩) ∧
    (∀ fs : EmailFS, (process_attachments fs).ranMimeExtraction = false ↔
      (process_attachments fs).source = "Local folder".toList) := by
  constructor
  · intro fs n files hauto hlookup hne
    have hff : folderFiles fs =
        files.map (fun p => ⟨p.fst, dirPath fs n ++ '/' :: p.fst, p.snd⟩) := by
      unfold folderFiles
      rw [hauto]
      show List.map _ ((List.lookup n fs.sibling).getD []) = _
      rw [hlookup]
      rfl
    have hmap : files.map
        (fun p => (⟨p.fst, dirPath fs n ++ '/' :: p.fst, p.snd⟩ : Attachment)) ≠ [] := by
      simp only [ne_eq, List.map_eq_nil_iff]
      exact hne
    unfold process_attachments
    rw [hff, if_neg hmap]
  · intro fs
    unfold process_attachments
    by_cases h : folderFiles fs = [] <;> simp [h]

/-- Claim C6 witness: with the first candidate folder non-empty, the
folder files are used and the source is `Local folder`. -/
theorem claim_C6_witness :
    process_attachments exC6GoodFS =
      ⟨[⟨r"cv.pdf".toList, "/mail/attachments/cv.pdf".toList, 100⟩],
        "Local folder".toList, false⟩ :=
  (claim_C6_amended.1 exC6GoodFS ("attachments".toList) [(r"cv.pdf".toList, 100)]
      (by decide) (by decide) (by decide)).trans (by decide)

theorem perm_pair_cases {α : Type} {l : List α} {a b : α} (h : l.Perm [a, b]) :
    l = [a, b] ∨ l = [b, a] := by
  cases l with
  | nil => exact absurd h.length_eq (by simp)
  | cons x t =>
    cases t with
    | nil => exact absurd h.length_eq (by simp)
    | cons y t2 =>
      cases t2 with
      | cons z t3 => exact absurd h.length_eq (by simp)
      | nil =>
        have hx : x ∈ [a, b] := h.subset (by simp)
        rcases List.mem_pair.mp hx with hxa | hxb
        · have h2 : ([a, y] : List α).Perm [a, b] := hxa ▸ h
          have hy : y = b := by
            have h3 := List.perm_singleton.mp h2.cons_inv
            simpa using h3
          left
          rw [hxa, hy]
        · have h2 : ([b, y] : List α).Perm [a, b] := hxb ▸ h
          have hy : y = a := by
            have h3 :=
              List.perm_singleton.mp (h2.trans (List.Perm.swap b a [])).cons_inv
            simpa using h3
          right
          rw [hxb, hy]

theorem sortNames_eq_of_perm {l1 l2 : List Str} (h : l1.Perm l2) :
    sortNames l1 = sortNames l2 :=
  List.eq_of_perm_of_sorted
    (((List.perm_insertionSort _ l1).trans h).trans (List.perm_insertionSort _ l2).symm)
    (List.sorted_insertionSort _ l1) (List.sorted_insertionSort _ l2)

/-- Claim C10: a valid archive none of whose entries has an included
extension yields exactly the method `zip_extract+` (empty joined set
after the prefix) and a text that is the file listing followed by an
empty contents section. -/
theorem claim_C10 :
    ∀ (exts : List Str) (env : ZipEnv) (path : Str),
    env.prep = Except.ok () →
    (∀ n ∈ env.names, extIncluded exts n = false) →
    IsSetIter env.setIter (zipMethods exts env) →
    extract_zip exts env path =
      (zipListingText path (sortNames env.names) ++
        "\n## Extracted file contents:\n\n".toList,
        "zip_extract+".toList) := by
  intro exts env path hprep hnone hiter
  have hmem : ∀ n ∈ sortNames env.names, extIncluded exts n = false := by
    intro n hn
    exact hnone n ((List.perm_insertionSort _ env.names).mem_iff.mp hn)
  have hms : zipMethods exts env = [] := by
    unfold zipMethods
    rw [List.filterMap_eq_nil_iff]
    intro n hn
    simp [hmem n hn]
  have hit : env.setIter = [] := by
    have h2 : env.setIter.Perm (List.dedup []) := hms ▸ hiter
    exact h2.eq_nil
  have hsec : ((sortNames env.names).map (zipEntrySection exts env.result)).flatten = [] := by
    rw [List.flatten_eq_nil_iff]
    intro l hl
    rcases List.mem_map.mp hl with ⟨n, hn, rfl⟩
    unfold zipEntrySection
    simp [hmem n hn]
  unfold extract_zip
  rw [hprep]
  show (zipBodyText exts env path, _) = _
  unfold zipBodyText
  rw [hsec, hit, List.append_nil]
  show (_, "zip_extract+".toList ++ joinPlus []) = _
  rw [show joinPlus [] = [] from rfl, List.append_nil]

/-- Claim C10 witness: a concrete archive with only non-included entries. -/
theorem claim_C10_witness :
    extract_zip defaultIncludeExtensions exC10Env exC10Path =
      (zipListingText exC10Path (sortNames exC10Env.names) ++
        "\n## Extracted file contents:\n\n".toList,
        "zip_extract+".toList) :=
  claim_C10 defaultIncludeExtensions exC10Env exC10Path (by decide) (by decide) (by decide)

/-- Claim C4: the combined ZIP method is `zip_extract+` followed by a
duplicate-free enumeration of exactly the inner methods joined by `+`;
and in the two-text-entries-plus-one-pandoc-entry scenario the result
begins with `zip_extract+` and contains `direct_read` exactly once, for
every possible set-iteration order. -/
theorem claim_C4 :
    (∀ (exts : List Str) (env : ZipEnv) (path : Str),
      env.prep = Except.ok () →
      IsSetIter env.setIter (zipMethods exts env) →
      ∃ iter : List Str, iter.Nodup ∧
        (∀ x, x ∈ iter ↔ x ∈ zipMethods exts env) ∧
        (extract_zip exts env path).snd = "zip_extract+".toList ++ joinPlus iter) ∧
    (∀ iter : List Str, IsSetIter iter msC4 →
      startsWith ("zip_extract+".toList)
          (extract_zip defaultIncludeExtensions (exC4Env iter) exC4Path).snd = true ∧
      countOccur ("direct_read".toList)
          (extract_zip defaultIncludeExtensions (exC4Env iter) exC4Path).snd = 1) := by
  constructor
  · intro exts env path hprep hiter
    refine ⟨env.setIter, hiter.nodup_iff.mpr (List.nodup_dedup _),
      fun x => (hiter.mem_iff).trans List.mem_dedup, ?_⟩
    unfold extract_zip
    rw [hprep]
  · intro iter hiter
    have hd : msC4.dedup = [r"direct_read".toList, r"pandoc".toList] := by decide
    rw [IsSetIter, hd] at hiter
    rcases perm_pair_cases hiter with rfl | rfl
    · exact ⟨by decide, by decide⟩
    · exact ⟨by decide, by decide⟩

/-- Claim C4 witness: the structural part instantiated on the scenario
archive with one concrete iteration order, plus the scenario conclusion. -/
theorem claim_C4_witness :
    (∃ iter : List Str, iter.Nodup ∧
      (∀ x, x ∈ iter ↔ x ∈ zipMethods defaultIncludeExtensions (exC4Env iterDP)) ∧
      (extract_zip defaultIncludeExtensions (exC4Env iterDP) exC4Path).snd =
        "zip_extract+".toList ++ joinPlus iter) ∧
    (startsWith ("zip_extract+".toList)
        (extract_zip defaultIncludeExtensions (exC4Env iterDP) exC4Path).snd = true ∧
      countOccur ("direct_read".toList)
        (extract_zip defaultIncludeExtensions (exC4Env iterDP) exC4Path).snd = 1) :=
  ⟨claim_C4.1 defaultIncludeExtensions (exC4Env iterDP) exC4Path rfl (by decide),
    claim_C4.2 iterDP (by decide)⟩

/-- Claim C5 counterexample: on the same archive, two runs differing only
in the (hash-seed dependent) set-iteration order produce different
combined method strings, though the extracted text agrees. -/
theorem claim_C5_counterexample :
    IsSetIter iterDP msC5 ∧ IsSetIter iterPD msC5 ∧
    (extract_zip defaultIncludeExtensions (exC5Env iterDP) exC5Path).fst =
      (extract_zip defaultIncludeExtensions (exC5Env iterPD) exC5Path).fst ∧
    (extract_zip defaultIncludeExtensions (exC5Env iterDP) exC5Path).snd ≠
      (extract_zip defaultIncludeExtensions (exC5Env iterPD) exC5Path).snd := by
  refine ⟨by decide, by decide, by decide, by decide⟩

/-- Claim C5 (amended): the extracted text and the underlying method set
are determined solely by the archive contents — the walk order does not
matter because entries are sorted lexicographically, the text does not
depend on the set-iteration order, and any two valid set iterations are
permutations of each other — but the joined order inside the combined
method string is not fixed across runs. -/
theorem claim_C5_amended :
    (∀ (exts : List Str) (prep : ExtRes Unit) (names1 names2 : List Str)
      (result : Str → ExtRes (Str × Str)) (iter : List Str) (path : Str),
      names1.Perm names2 →
      extract_zip exts ⟨prep, names1, result, iter⟩ path =
        extract_zip exts ⟨prep, names2, result, iter⟩ path) ∧
    (∀ (exts : List Str) (env : ZipEnv) (iter1 iter2 : List Str),
      IsSetIter iter1 (zipMethods exts env) →
      IsSetIter iter2 (zipMethods exts env) →
      iter1.Perm iter2) ∧
    (∀ (exts : List Str) (prep : ExtRes Unit) (names : List Str)
      (result : Str → ExtRes (Str × Str)) (iter1 iter2 : List Str) (path : Str),
      (extract_zip exts ⟨prep, names, result, iter1⟩ path).fst =
        (extract_zip exts ⟨prep, names, result, iter2⟩ path).fst) := by
  refine ⟨?_, ?_, ?_⟩
  · intro exts prep names1 names2 result iter path h
    cases prep with
    | error e => rfl
    | ok u =>
      unfold extract_zip zipBodyText zipListingText
      rw [sortNames_eq_of_perm h]
  · intro exts env iter1 iter2 h1 h2
    exact h1.trans h2.symm
  · intro exts prep names result iter1 iter2 path
    cases prep with
    | error e => rfl
    | ok u => rfl

/-- Claim C5 witness: the amended determinism facts instantiated on the
concrete two-entry archive. -/
theorem claim_C5_witness :
    extract_zip defaultIncludeExtensions
        ⟨Except.ok (), [r"a.txt".toList, r"b.docx".toList], exC5Result, iterDP⟩ exC5Path =
      extract_zip defaultIncludeExtensions
        ⟨Except.ok (), [r"b.docx".toList, r"a.txt".toList], exC5Result, iterDP⟩ exC5Path ∧
    iterDP.Perm iterPD ∧
    (extract_zip defaultIncludeExtensions (exC5Env iterDP) exC5Path).fst =
      (extract_zip defaultIncludeExtensions (exC5Env iterPD) exC5Path).fst :=
  ⟨claim_C5_amended.1 defaultIncludeExtensions (Except.ok ())
      [r"a.txt".toList, r"b.docx".toList] [r"b.docx".toList, r"a.txt".toList]
      exC5Result iterDP exC5Path (by decide),
    claim_C5_amended.2.1 defaultIncludeExtensions (exC5Env iterDP) iterDP iterPD
      (by decide) (by decide),
    claim_C5_amended.2.2 defaultIncludeExtensions (Except.ok ())
      [r"a.txt".toList, r"b.docx".toList] exC5Result iterDP iterPD exC5Path⟩

theorem dropWhile_cons_head_false {α : Type} (q : α → Bool) (l : List α)
    (hd : α) (tl : List α) (h : l.dropWhile q = hd :: tl) : q hd = false := by
  induction l with
  | nil => simp [List.dropWhile] at h
  | cons a as ih =>
    rw [List.dropWhile_cons] at h
    cases hq : q a with
    | true => rw [if_pos (by simp [hq])] at h; exact ih h
    | false =>
      rw [if_neg (by simp [hq])] at h
      cases h
      exact hq

/-- The splitext extension is always a suffix of the path. -/
theorem pyExt_isSuffix (p : Str) : (pyExt p) <:+ p := by
  have hsplit := List.takeWhile_append_dropWhile (fun c => c != '.') p.reverse
  unfold pyExt
  cases h : p.reverse.dropWhile (fun c => c != '.') with
  | nil => exact List.nil_suffix
  | cons hd tl =>
    have hq := dropWhile_cons_head_false (fun c => c != '.') p.reverse hd tl h
    have hd2 : hd = '.' := by simpa using hq
    rw [h] at hsplit
    subst hd2
    have hp : p = tl.reverse ++
        ('.' :: (p.reverse.takeWhile (fun c => c != '.')).reverse) := by
      calc p = p.reverse.reverse := (List.reverse_reverse p).symm
      _ = (p.reverse.takeWhile (fun c => c != '.') ++ ('.' :: tl)).reverse := by
            rw [hsplit]
      _ = ('.' :: tl).reverse ++ (p.reverse.takeWhile (fun c => c != '.')).reverse := by
            rw [List.reverse_append]
      _ = tl.reverse ++ ('.' :: (p.reverse.takeWhile (fun c => c != '.')).reverse) := by
            rw [List.reverse_cons, List.append_assoc]
            rfl
    simp only [pyExtCore]
    split
    · exact List.nil_suffix
    · split
      · exact ⟨tl.reverse, hp.symm⟩
      · exact List.nil_suffix

/-- A lower-cased path whose splitext extension is `.eml` ends with `.eml`. -/
theorem pyExt_eml_endsWith (s : Str) (h : pyExt s = ".eml".toList) :
    endsWith (".eml".toList) s = true := by
  have hs := pyExt_isSuffix s
  rw [h] at hs
  unfold endsWith
  exact List.isSuffixOf_iff_suffix.mpr hs

/-- A path ending with `.eml` has splitext extension `.eml`, unless its
basename is exactly `.eml` (leading-dot rule), in which case the
extension is empty. -/
theorem endsWith_eml_pyExt (s : Str) (h : endsWith (".eml".toList) s = true) :
    pyExt s = ".eml".toList ∨ pyExt s = [] := by
  obtain ⟨t, ht⟩ := List.isSuffixOf_iff_suffix.mp h
  subst ht
  unfold pyExt
  rw [List.reverse_append]
  have h1 : (".eml".toList.reverse ++ t.reverse).takeWhile (fun c => c != '.') =
      ['l', 'm', 'e'] := rfl
  have h2 : (".eml".toList.reverse ++ t.reverse).dropWhile (fun c => c != '.') =
      '.' :: t.reverse := rfl
  rw [h1, h2]
  simp only [pyExtCore]
  rw [if_neg (by decide)]
  split
  · left
    rfl
  · right
    rfl

/-- Claim C8: a supplied (non-empty) forced mode is returned as is;
without a forced mode the result is `single_email` exactly for a
one-element list whose member ends (lower-cased) in `.eml` — for members
of a filtered input list this coincides with having extension `.eml` —
and the three concrete spec scenarios resolve as stated. -/
theorem claim_C8 :
    (∀ (m : Str) (files : List Str), m ≠ [] →
      detect_processing_mode (some m) files = m) ∧
    (∀ files : List Str, detect_processing_mode none files = "single_email".toList ↔
      ∃ f, files = [f] ∧ endsWith (".eml".toList) (toLowerStr f) = true) ∧
    (∀ f : Str, pyExt (toLowerStr f) = ".eml".toList →
      endsWith (".eml".toList) (toLowerStr f) = true) ∧
    (∀ f : Str, endsWith (".eml".toList) (toLowerStr f) = true →
      pyExt (toLowerStr f) = ".eml".toList ∨ pyExt (toLowerStr f) = []) ∧
    detect_processing_mode none ["msg.eml".toList] = "single_email".toList ∧
    detect_processing_mode (some ("standard".toList)) ["msg.eml".toList] =
      "standard".toList ∧
    detect_processing_mode none ["a.eml".toList, "b.eml".toList] =
      "standard".toList := by
  refine ⟨?_, ?_, fun f => pyExt_eml_endsWith (toLowerStr f),
    fun f => endsWith_eml_pyExt (toLowerStr f), by decide, by decide, by decide⟩
  · intro m files hm
    show (if m = [] then detectAutoMode files else m) = m
    rw [if_neg hm]
  · intro files
    constructor
    · intro h
      cases files with
      | nil => exact absurd h (by decide)
      | cons f t =>
        cases t with
        | cons f2 rest =>
          have hstd : detect_processing_mode none (f :: f2 :: rest) =
              "standard".toList := rfl
          rw [hstd] at h
          exact absurd h (by decide)
        | nil =>
          have hsplit : detect_processing_mode none [f] =
              if endsWith (".eml".toList) (toLowerStr f) = true then
                "single_email".toList
              else "standard".toList := rfl
          rw [hsplit] at h
          by_cases he : endsWith (".eml".toList) (toLowerStr f) = true
          · exact ⟨f, rfl, he⟩
          · rw [if_neg he] at h
            exact absurd h (by decide)
    · rintro ⟨f, rfl, he⟩
      show (if endsWith (".eml".toList) (toLowerStr f) = true then
          "single_email".toList else "standard".toList) = "single_email".toList
      rw [if_pos he]

/-- Claim C8 witness: the forced-mode conjunct applied at a concrete
non-empty mode. -/
theorem claim_C8_witness :
    detect_processing_mode (some ("standard".toList)) ["one.eml".toList] =
      "standard".toList :=
  claim_C8.1 ("standard".toList) ["one.eml".toList] (by decide)

theorem bracketed_parts (pre mid post : Str) (hpre : pre.head? = some '[')
    (hpost : post.getLast? = some ']') :
    BracketedPlaceholder (pre ++ mid ++ post) := by
  have hpostNe : post ≠ [] := by
    intro hn
    rw [hn] at hpost
    exact Option.noConfusion hpost
  refine ⟨?_, ?_, ?_⟩
  · intro h
    exact hpostNe (List.append_eq_nil.mp h).2
  · rw [List.append_assoc, List.head?_append, hpre]
    rfl
  · rw [List.getLast?_append, hpost]
    rfl

theorem mentions_middle (pre mid post : Str) :
    MentionsName mid (pre ++ mid ++ post) := by
  unfold MentionsName containsSub
  rw [List.any_eq_true]
  refine ⟨pre.length, List.mem_range.mpr ?_, ?_⟩
  · rw [List.append_assoc, List.length_append]
    omega
  · rw [List.append_assoc, List.drop_left]
    exact List.isPrefixOf_iff_prefix.mpr (List.prefix_append mid post)

theorem convert_pdf_cases (env : PdfEnv) (path : Str) :
    (∃ t, convert_pdf_to_text env path = Except.ok (t, "markitdown-uvx".toList)) ∨
    (∃ t, convert_pdf_to_text env path = Except.ok (t, "markitdown".toList)) ∨
    (∃ t, convert_pdf_to_text env path = Except.ok (t, "pdftotext".toList)) ∨
    convert_pdf_to_text env path = Except.ok (pdfFailText path, "failed".toList) ∨
    (∃ e, convert_pdf_to_text env path = Except.error e) := by
  rcases env with ⟨ua, ur, mr, pr⟩
  cases ua <;> cases ur <;> cases mr <;> cases pr <;>
    simp only [convert_pdf_to_text, attemptStep] <;>
    (try split_ifs) <;>
    first
      | exact Or.inl ⟨_, rfl⟩
      | exact Or.inr (Or.inl ⟨_, rfl⟩)
      | exact Or.inr (Or.inr (Or.inl ⟨_, rfl⟩))
      | exact Or.inr (Or.inr (Or.inr (Or.inl rfl)))
      | exact Or.inr (Or.inr (Or.inr (Or.inr ⟨_, rfl⟩)))


theorem attemptStep_benign (run : ExtRes Str) (tag : Str) (next : ExtRes (Str × Str))
    (hb : resCaught caughtToolErr run = true) :
    (∃ t, attemptStep run tag next = Except.ok (t, tag)) ∨
      attemptStep run tag next = next := by
  cases run with
  | ok t => exact Or.inl ⟨t, rfl⟩
  | error e =>
    right
    have hcls : caughtToolErr e.cls = true := hb
    show (if caughtToolErr e.cls = true then next else Except.error e) = next
    rw [if_pos hcls]

theorem convert_pdf_benign_ok (env : PdfEnv) (path : Str)
    (hb : benignPdfEnv env = true) :
    ∃ t m, convert_pdf_to_text env path = Except.ok (t, m) ∧ m ≠ [] := by
  simp only [benignPdfEnv, Bool.and_eq_true] at hb
  obtain ⟨⟨hb1, hb2⟩, hb3⟩ := hb
  unfold convert_pdf_to_text
  dsimp only
  have chain2 : ∃ t m,
      attemptStep env.mdRun ("markitdown".toList)
        (attemptStep env.pdftotextRun ("pdftotext".toList)
          (Except.ok (pdfFailText path, "failed".toList))) =
        Except.ok (t, m) ∧ m ≠ [] := by
    rcases attemptStep_benign env.mdRun ("markitdown".toList)
        (attemptStep env.pdftotextRun ("pdftotext".toList)
          (Except.ok (pdfFailText path, "failed".toList))) hb2 with ⟨t2, h2⟩ | h2
    · exact ⟨t2, _, h2, by decide⟩
    · rw [h2]
      rcases attemptStep_benign env.pdftotextRun ("pdftotext".toList)
          (Except.ok (pdfFailText path, "failed".toList)) hb3 with ⟨t3, h3⟩ | h3
      · exact ⟨t3, _, h3, by decide⟩
      · rw [h3]
        exact ⟨_, _, rfl, by decide⟩
  cases hua : env.uvxAvailable
  · rw [if_neg (by decide)]
    exact chain2
  · rw [if_pos rfl]
    rw [hua] at hb1
    simp only [Bool.not_true, Bool.false_or] at hb1
    rcases attemptStep_benign env.uvxRun ("markitdown-uvx".toList) _ hb1 with ⟨t1, h1⟩ | h1
    · exact ⟨t1, _, h1, by decide⟩
    · rw [h1]
      exact chain2

theorem attemptStep_failed (run : ExtRes Str) (tag : Str) (next : ExtRes (Str × Str))
    (hf : resFailedCaught caughtToolErr run = true) :
    attemptStep run tag next = next := by
  cases run with
  | ok t => simp [resFailedCaught] at hf
  | error e =>
    have hcls : caughtToolErr e.cls = true := hf
    show (if caughtToolErr e.cls = true then next else Except.error e) = next
    rw [if_pos hcls]

theorem convert_pdf_exhausted (env : PdfEnv) (path : Str)
    (h : pdfExhausted env = true) :
    convert_pdf_to_text env path = Except.ok (pdfFailText path, "failed".toList) := by
  simp only [pdfExhausted, Bool.and_eq_true] at h
  obtain ⟨⟨h1, h2⟩, h3⟩ := h
  unfold convert_pdf_to_text
  dsimp only
  have hch : attemptStep env.mdRun ("markitdown".toList)
      (attemptStep env.pdftotextRun ("pdftotext".toList)
        (Except.ok (pdfFailText path, "failed".toList))) =
      Except.ok (pdfFailText path, "failed".toList) := by
    rw [attemptStep_failed _ _ _ h2, attemptStep_failed _ _ _ h3]
  cases hua : env.uvxAvailable
  · rw [if_neg (by decide)]
    exact hch
  · rw [if_pos rfl]
    rw [hua] at h1
    simp only [Bool.not_true, Bool.false_or] at h1
    rw [attemptStep_failed _ _ _ h1]
    exact hch

theorem convert_epub_cases (run : ExtRes Str) (path : Str) :
    (∃ t, convert_epub_to_text run path = Except.ok (t, "ebook-convert".toList)) ∨
    convert_epub_to_text run path =
      Except.ok (epubFailText path, "failed".toList) ∨
    (∃ e, convert_epub_to_text run path = Except.error e) := by
  cases run with
  | ok t => exact Or.inl ⟨t, rfl⟩
  | error e =>
    simp only [convert_epub_to_text, attemptStep]
    split_ifs
    · exact Or.inr (Or.inl rfl)
    · exact Or.inr (Or.inr ⟨e, rfl⟩)

theorem convert_epub_benign_ok (run : ExtRes Str) (path : Str)
    (hb : resCaught caughtToolErr run = true) :
    ∃ t m, convert_epub_to_text run path = Except.ok (t, m) ∧ m ≠ [] := by
  rcases attemptStep_benign run ("ebook-convert".toList)
      (Except.ok (epubFailText path, "failed".toList)) hb with ⟨t, h⟩ | h
  · exact ⟨t, _, h, by decide⟩
  · exact ⟨_, _, h, by decide⟩

theorem convert_epub_exhausted (run : ExtRes Str) (path : Str)
    (h : resFailedCaught caughtToolErr run = true) :
    convert_epub_to_text run path = Except.ok (epubFailText path, "failed".toList) :=
  attemptStep_failed run ("ebook-convert".toList) _ h

theorem convert_docx_cases (env : DocxEnv) (path : Str) :
    (∃ t, convert_docx_to_text env path = Except.ok (t, "pandoc".toList)) ∨
    (∃ t, convert_docx_to_text env path = Except.ok (t, "docx2txt".toList)) ∨
    convert_docx_to_text env path =
      Except.ok (docxFailText path, "failed".toList) ∨
    (∃ e, convert_docx_to_text env path = Except.error e) := by
  rcases env with ⟨pan, avail, d2t⟩
  cases pan <;> cases avail <;> cases d2t <;>
    simp only [convert_docx_to_text] <;>
    (try split_ifs) <;>
    first
      | exact Or.inl ⟨_, rfl⟩
      | exact Or.inr (Or.inl ⟨_, rfl⟩)
      | exact Or.inr (Or.inr (Or.inl rfl))
      | exact Or.inr (Or.inr (Or.inr ⟨_, rfl⟩))

/-- Under a pandoc failure class the DOC chain can catch, the DOCX chain
either returns a pair or re-raises that same caught class. -/
theorem convert_docx_benign2 (env : DocxEnv) (path : Str)
    (hb : resCaught caughtDocErr env.pandocRun = true) :
    (∃ t m, convert_docx_to_text env path = Except.ok (t, m) ∧ m ≠ []) ∨
    (∃ e, convert_docx_to_text env path = Except.error e ∧ caughtDocErr e.cls = true) := by
  rcases env with ⟨pan, avail, d2t⟩
  cases pan with
  | ok t => exact Or.inl ⟨t, _, rfl, by decide⟩
  | error e =>
    have hcls : caughtDocErr e.cls = true := hb
    simp only [convert_docx_to_text]
    by_cases hct : caughtToolErr e.cls = true
    · rw [if_pos hct]
      cases avail <;> cases d2t <;> dsimp only <;> (try split_ifs) <;>
        exact Or.inl ⟨_, _, rfl, by decide⟩
    · rw [if_neg hct]
      exact Or.inr ⟨e, rfl, hcls⟩

theorem convert_docx_benign_ok (env : DocxEnv) (path : Str)
    (hb : benignDocxEnv env = true) :
    ∃ t m, convert_docx_to_text env path = Except.ok (t, m) ∧ m ≠ [] := by
  have hb2 : resCaught caughtToolErr env.pandocRun = true := hb
  rcases env with ⟨pan, avail, d2t⟩
  cases pan with
  | ok t => exact ⟨t, _, rfl, by decide⟩
  | error e =>
    have hcls : caughtToolErr e.cls = true := hb2
    simp only [convert_docx_to_text]
    rw [if_pos hcls]
    cases avail <;> cases d2t <;> dsimp only <;> (try split_ifs) <;>
      exact ⟨_, _, rfl, by decide⟩

theorem convert_docx_exhausted (env : DocxEnv) (path : Str)
    (h : docxExhausted env = true) :
    convert_docx_to_text env path =
      Except.ok (docxFailText path, "failed".toList) := by
  simp only [docxExhausted, Bool.and_eq_true] at h
  obtain ⟨h1, h2⟩ := h
  rcases env with ⟨pan, avail, d2t⟩
  cases pan with
  | ok t => simp [resFailedCaught] at h1
  | error e =>
    have hcls : caughtToolErr e.cls = true := h1
    simp only [convert_docx_to_text]
    rw [if_pos hcls]
    simp only [docx2txtNoRescue, Bool.or_eq_true] at h2
    cases avail with
    | false => rfl
    | true =>
      simp only [Bool.not_true, Bool.false_eq_true, false_or] at h2
      cases d2t with
      | error e2 => rfl
      | ok t2 =>
        have hstrip : pyStrip t2 = [] := by
          have h3 : (pyStrip t2).isEmpty = true := h2
          exact List.isEmpty_iff.mp h3
        simp [hstrip]

theorem convert_doc_cases (env : DocEnv) (path : Str) :
    (∃ t m, convert_doc_to_text env path = Except.ok (t, "soffice+".toList ++ m)) ∨
    convert_doc_to_text env path =
      Except.ok (docFailText path, "failed".toList) ∨
    (∃ e, convert_doc_to_text env path = Except.error e) := by
  rcases env with ⟨prep, soff, outEx, td, docx⟩
  unfold convert_doc_to_text
  dsimp only
  cases prep with
  | error e =>
    dsimp only
    split_ifs
    · exact Or.inr (Or.inl rfl)
    · exact Or.inr (Or.inr ⟨e, rfl⟩)
  | ok u =>
    dsimp only
    cases soff with
    | error e =>
      dsimp only
      split_ifs
      · exact Or.inr (Or.inl rfl)
      · exact Or.inr (Or.inr ⟨e, rfl⟩)
    | ok u2 =>
      dsimp only
      cases outEx
      · rw [if_neg (by decide)]
        exact Or.inr (Or.inl rfl)
      · rw [if_pos rfl]
        rcases convert_docx_cases docx
            (docOutputPath ⟨Except.ok u, Except.ok u2, true, td, docx⟩ path) with
          ⟨t, h⟩ | ⟨t, h⟩ | h | ⟨e, h⟩
        · rw [h]
          exact Or.inl ⟨t, _, rfl⟩
        · rw [h]
          exact Or.inl ⟨t, _, rfl⟩
        · rw [h]
          exact Or.inl ⟨_, _, rfl⟩
        · rw [h]
          dsimp only
          split_ifs
          · exact Or.inr (Or.inl rfl)
          · exact Or.inr (Or.inr ⟨e, rfl⟩)

theorem convert_doc_benign_ok (env : DocEnv) (path : Str)
    (hb : benignDocEnv env = true) :
    ∃ t m, convert_doc_to_text env path = Except.ok (t, m) ∧ m ≠ [] := by
  simp only [benignDocEnv, Bool.and_eq_true] at hb
  obtain ⟨⟨hb1, hb2⟩, hb3⟩ := hb
  rcases env with ⟨prep, soff, outEx, td, docx⟩
  unfold convert_doc_to_text
  dsimp only
  cases prep with
  | error e =>
    dsimp only
    have hcls : caughtDocErr e.cls = true := hb1
    rw [if_pos hcls]
    exact ⟨_, _, rfl, by decide⟩
  | ok u =>
    dsimp only
    cases soff with
    | error e =>
      dsimp only
      have hcls : caughtDocErr e.cls = true := hb2
      rw [if_pos hcls]
      exact ⟨_, _, rfl, by decide⟩
    | ok u2 =>
      dsimp only
      cases outEx
      · rw [if_neg (by decide)]
        exact ⟨_, _, rfl, by decide⟩
      · rw [if_pos rfl]
        rcases convert_docx_benign2 docx
            (docOutputPath ⟨Except.ok u, Except.ok u2, true, td, docx⟩ path) hb3 with
          ⟨t, m, h, hm⟩ | ⟨e, h, hcls⟩
        · rw [h]
          exact ⟨t, "soffice+".toList ++ m, rfl, List.cons_ne_nil _ _⟩
        · rw [h]
          dsimp only
          rw [if_pos hcls]
          exact ⟨_, _, rfl, by decide⟩

theorem convert_doc_bridge_failed (env : DocEnv) (path : Str)
    (h : docBridgeFailedCaught env = true) :
    convert_doc_to_text env path =
      Except.ok (docFailText path, "failed".toList) := by
  rcases env with ⟨prep, soff, outEx, td, docx⟩
  simp only [docBridgeFailedCaught, Bool.or_eq_true, Bool.and_eq_true] at h
  unfold convert_doc_to_text
  dsimp only
  cases prep with
  | error e =>
    dsimp only
    have hcls : caughtDocErr e.cls = true := by
      rcases h with (h1 | ⟨h1, h2⟩) | ⟨⟨h1, h2⟩, h3⟩
      · exact h1
      · simp [isOkRes] at h1
      · simp [isOkRes] at h1
    rw [if_pos hcls]
  | ok u =>
    dsimp only
    cases soff with
    | error e =>
      dsimp only
      have hcls : caughtDocErr e.cls = true := by
        rcases h with (h1 | ⟨h1, h2⟩) | ⟨⟨h1, h2⟩, h3⟩
        · simp [resFailedCaught] at h1
        · exact h2
        · simp [isOkRes] at h2
      rw [if_pos hcls]
    | ok u2 =>
      dsimp only
      have hout : outEx = false := by
        rcases h with (h1 | ⟨h1, h2⟩) | ⟨⟨h1, h2⟩, h3⟩
        · simp [resFailedCaught] at h1
        · simp [resFailedCaught] at h2
        · simpa using h3
      rw [hout]
      rw [if_neg (by decide)]

theorem convert_doc_bridge_ok_docx_exhausted (env : DocEnv) (path : Str)
    (hok : docBridgeOk env = true) (hex : docxExhausted env.docx = true) :
    convert_doc_to_text env path =
      Except.ok (docxFailText (docOutputPath env path), "soffice+failed".toList) := by
  rcases env with ⟨prep, soff, outEx, td, docx⟩
  simp only [docBridgeOk, Bool.and_eq_true] at hok
  obtain ⟨⟨h1, h2⟩, h3⟩ := hok
  unfold convert_doc_to_text
  dsimp only
  cases prep with
  | error e => simp [isOkRes] at h1
  | ok u =>
    dsimp only
    cases soff with
    | error e => simp [isOkRes] at h2
    | ok u2 =>
      dsimp only
      rw [if_pos h3]
      rw [convert_docx_exhausted docx _ hex]
      rfl

theorem convert_rtf_cases (env : RtfEnv) (path : Str) :
    (∃ t, convert_rtf_to_text env path = Except.ok (t, "pandoc".toList)) ∨
    (∃ t, convert_rtf_to_text env path = Except.ok (t, "unrtf".toList)) ∨
    (∃ t, convert_rtf_to_text env path = Except.ok (t, "striprtf".toList)) ∨
    convert_rtf_to_text env path =
      Except.ok (rtfFailText path, "failed".toList) ∨
    (∃ e, convert_rtf_to_text env path = Except.error e) := by
  rcases env with ⟨pan, unr, str⟩
  cases pan <;> cases unr <;> cases str <;>
    simp only [convert_rtf_to_text, attemptStep] <;>
    (try split_ifs) <;>
    first
      | exact Or.inl ⟨_, rfl⟩
      | exact Or.inr (Or.inl ⟨_, rfl⟩)
      | exact Or.inr (Or.inr (Or.inl ⟨_, rfl⟩))
      | exact Or.inr (Or.inr (Or.inr (Or.inl rfl)))
      | exact Or.inr (Or.inr (Or.inr (Or.inr ⟨_, rfl⟩)))

theorem convert_rtf_benign_ok (env : RtfEnv) (path : Str)
    (hb : benignRtfEnv env = true) :
    ∃ t m, convert_rtf_to_text env path = Except.ok (t, m) ∧ m ≠ [] := by
  simp only [benignRtfEnv, Bool.and_eq_true] at hb
  obtain ⟨hb1, hb2⟩ := hb
  unfold convert_rtf_to_text
  dsimp only
  have third : ∃ t m,
      (match env.striprtfRun with
        | Except.ok t => Except.ok (t, "striprtf".toList)
        | Except.error _ =>
          Except.ok (rtfFailText path, "failed".toList) :
        ExtRes (Str × Str)) = Except.ok (t, m) ∧ m ≠ [] := by
    cases env.striprtfRun with
    | ok t => exact ⟨t, _, rfl, by decide⟩
    | error e => exact ⟨_, _, rfl, by decide⟩
  obtain ⟨t3, m3, h3, hm3⟩ := third
  rcases attemptStep_benign env.pandocRun ("pandoc".toList) _ hb1 with ⟨t1, h1⟩ | h1
  · exact ⟨t1, _, h1, by decide⟩
  · rw [h1]
    rcases attemptStep_benign env.unrtfRun ("unrtf".toList) _ hb2 with ⟨t2, h2⟩ | h2
    · exact ⟨t2, _, h2, by decide⟩
    · rw [h2]
      exact ⟨t3, m3, h3, hm3⟩

theorem convert_rtf_exhausted (env : RtfEnv) (path : Str)
    (h : rtfExhausted env = true) :
    convert_rtf_to_text env path =
      Except.ok (rtfFailText path, "failed".toList) := by
  simp only [rtfExhausted, Bool.and_eq_true] at h
  obtain ⟨⟨h1, h2⟩, h3⟩ := h
  unfold convert_rtf_to_text
  dsimp only
  rw [attemptStep_failed _ _ _ h1, attemptStep_failed _ _ _ h2]
  cases hs : env.striprtfRun with
  | ok t => rw [hs] at h3; simp [isErrRes] at h3
  | error e => rfl

theorem convert_txt_cases (run : ExtRes Str) (path : Str) :
    (∃ t, convert_txt_to_text run path = (t, "direct_read".toList)) ∨
    convert_txt_to_text run path = (txtFailText path, "failed".toList) := by
  cases run with
  | ok t => exact Or.inl ⟨t, rfl⟩
  | error e => exact Or.inr rfl

theorem convert_txt_failed (run : ExtRes Str) (path : Str)
    (h : isErrRes run = true) :
    convert_txt_to_text run path = (txtFailText path, "failed".toList) := by
  cases run with
  | ok t => simp [isErrRes] at h
  | error e => rfl

theorem extract_zip_cases (exts : List Str) (env : ZipEnv) (path : Str) :
    extract_zip exts env path =
      ("[Error: ".toList ++ baseName path ++ " is not a valid ZIP file]".toList,
        "failed-bad_zip".toList) ∨
    (∃ msg, extract_zip exts env path =
      ("[Error processing ZIP file: ".toList ++ msg ++ "]".toList,
        "failed-exception".toList)) ∨
    extract_zip exts env path =
      (zipBodyText exts env path, "zip_extract+".toList ++ joinPlus env.setIter) := by
  rcases env with ⟨prep, names, res, it⟩
  cases prep with
  | ok u => exact Or.inr (Or.inr rfl)
  | error e =>
    simp only [extract_zip]
    split_ifs
    · exact Or.inl rfl
    · exact Or.inr (Or.inl ⟨e.msg, rfl⟩)

theorem process_email_cases (exts : List Str) (env : EmailRunEnv) (path : Str) :
    (∃ msg, process_email exts env path =
      ("[Error processing email file: ".toList ++ msg ++ "]".toList,
        "failed-exception".toList)) ∨
    process_email exts env path =
      ("[Failed to parse email file: ".toList ++ baseName path ++ "]".toList,
        "failed-parse".toList) ∨
    (∃ content, process_email exts env path =
      (content,
        "email+".toList ++ underscoreLower (process_attachments env.fs).source)) := by
  rcases env with ⟨prep, pok, head, fs, disp, fmt, tt⟩
  cases prep with
  | error e => exact Or.inl ⟨e.msg, rfl⟩
  | ok u =>
    cases pok
    · exact Or.inr (Or.inl rfl)
    · exact Or.inr (Or.inr ⟨_, rfl⟩)

theorem extract_zip_snd_ne_nil (exts : List Str) (env : ZipEnv) (path : Str) :
    (extract_zip exts env path).snd ≠ [] := by
  rcases extract_zip_cases exts env path with h | ⟨msg, h⟩ | h <;> rw [h]
  · show ("failed-bad_zip".toList : Str) ≠ []
    decide
  · show ("failed-exception".toList : Str) ≠ []
    decide
  · exact List.cons_ne_nil _ _

theorem process_email_snd_ne_nil (exts : List Str) (env : EmailRunEnv) (path : Str) :
    (process_email exts env path).snd ≠ [] := by
  rcases process_email_cases exts env path with ⟨msg, h⟩ | h | ⟨content, h⟩ <;> rw [h]
  · show ("failed-exception".toList : Str) ≠ []
    decide
  · show ("failed-parse".toList : Str) ≠ []
    decide
  · exact List.cons_ne_nil _ _

/-- Claim C1 (amended): whenever every external failure met by the five
converter chains carries an exception class their `except` clauses catch,
the dispatcher returns a `(text, method)` pair with non-empty method for
every input path; the `.zip`, `.eml` and plain-text branches need no such
condition.  (Without the condition the claim fails: see the
counterexample.) -/
theorem claim_C1_amended :
    ∀ (exts : List Str) (env : FileEnv) (path : Str),
    benignFileEnv env = true →
    ∃ t m, process_file exts env path = Except.ok (t, m) ∧ m ≠ [] := by
  intro exts env path hb
  simp only [benignFileEnv, Bool.and_eq_true] at hb
  obtain ⟨⟨⟨⟨hpdf, hepub⟩, hdocx⟩, hdoc⟩, hrtf⟩ := hb
  unfold process_file
  dsimp only
  split_ifs
  · exact convert_pdf_benign_ok env.pdf path hpdf
  · exact convert_epub_benign_ok env.epubRun path hepub
  · exact convert_docx_benign_ok env.docx path hdocx
  · exact convert_doc_benign_ok env.doc path hdoc
  · exact convert_rtf_benign_ok env.rtf path hrtf
  · exact ⟨(extract_zip exts env.zip path).fst, (extract_zip exts env.zip path).snd,
      rfl, extract_zip_snd_ne_nil exts env.zip path⟩
  · exact ⟨(process_email exts env.eml path).fst, (process_email exts env.eml path).snd,
      rfl, process_email_snd_ne_nil exts env.eml path⟩
  · rcases convert_txt_cases env.txtRun path with ⟨t, h⟩ | h
    · exact ⟨t, _, by rw [h], by decide⟩
    · exact ⟨_, _, by rw [h], by decide⟩

/-- Claim C1 counterexample: a `.pdf` dispatch in which uvx is absent and
the markitdown invocation raises `PermissionError` (a class outside
`except (subprocess.SubprocessError, FileNotFoundError)`) propagates the
exception out of `process_file` instead of returning a pair. -/
theorem claim_C1_counterexample :
    process_file defaultIncludeExtensions exC1Env exC1Path =
      Except.error permExc := by
  decide

/-- Claim C1 witness: a concrete benign environment on a `.pdf` input. -/
theorem claim_C1_witness :
    benignFileEnv benignFileEnvEx = true ∧
    ∃ t m, process_file defaultIncludeExtensions benignFileEnvEx ("notes.pdf".toList) =
      Except.ok (t, m) ∧ m ≠ [] :=
  ⟨by decide, claim_C1_amended defaultIncludeExtensions benignFileEnvEx
    ("notes.pdf".toList) (by decide)⟩

/-- Claim C7 counterexample: a DOC input whose soffice bridge succeeds
while every DOCX strategy then fails returns method `soffice+failed`,
not the claimed exact string `failed`, and its placeholder names the
bridged `.docx` file. -/
theorem claim_C7_counterexample :
    convert_doc_to_text exC7DocEnv exC7Path =
      Except.ok ("[Failed to convert DOCX file: old.docx]".toList,
        "soffice+failed".toList) ∧
    "soffice+failed".toList ≠ "failed".toList := by
  exact ⟨by decide, by decide⟩

/-- Claim C7 (amended): an exhausted PDF, EPUB, DOCX, RTF or plain-text
chain, and a DOC chain whose soffice bridge fails, all return exactly
`(placeholder-with-basename, "failed")`; but a DOC input whose bridge
succeeds while the DOCX chain is exhausted returns `"soffice+failed"`
with a placeholder naming the bridged `.docx` file instead. -/
theorem claim_C7_amended :
    (∀ (env : PdfEnv) (path : Str), pdfExhausted env = true →
      convert_pdf_to_text env path =
        Except.ok (pdfFailText path, "failed".toList)) ∧
    (∀ (run : ExtRes Str) (path : Str), resFailedCaught caughtToolErr run = true →
      convert_epub_to_text run path =
        Except.ok (epubFailText path, "failed".toList)) ∧
    (∀ (env : DocxEnv) (path : Str), docxExhausted env = true →
      convert_docx_to_text env path =
        Except.ok (docxFailText path, "failed".toList)) ∧
    (∀ (env : RtfEnv) (path : Str), rtfExhausted env = true →
      convert_rtf_to_text env path =
        Except.ok (rtfFailText path, "failed".toList)) ∧
    (∀ (run : ExtRes Str) (path : Str), isErrRes run = true →
      convert_txt_to_text run path = (txtFailText path, "failed".toList)) ∧
    (∀ (env : DocEnv) (path : Str), docBridgeFailedCaught env = true →
      convert_doc_to_text env path =
        Except.ok (docFailText path, "failed".toList)) ∧
    (∀ (env : DocEnv) (path : Str), docBridgeOk env = true →
      docxExhausted env.docx = true →
      convert_doc_to_text env path =
        Except.ok (docxFailText (docOutputPath env path), "soffice+failed".toList)) :=
  ⟨convert_pdf_exhausted, convert_epub_exhausted, convert_docx_exhausted,
    convert_rtf_exhausted, convert_txt_failed, convert_doc_bridge_failed,
    convert_doc_bridge_ok_docx_exhausted⟩

/-- Claim C7 witness: the amended statement applied to a concretely
exhausted PDF chain and to the concrete bridged DOC scenario. -/
theorem claim_C7_witness :
    convert_pdf_to_text exhaustedPdfEnv exC1Path =
      Except.ok (pdfFailText exC1Path, "failed".toList) ∧
    convert_doc_to_text exC7DocEnv exC7Path =
      Except.ok (docxFailText (docOutputPath exC7DocEnv exC7Path),
        "soffice+failed".toList) :=
  ⟨claim_C7_amended.1 exhaustedPdfEnv exC1Path (by decide),
    claim_C7_amended.2.2.2.2.2.2 exC7DocEnv exC7Path (by decide) (by decide)⟩

/-- Claim C3 counterexample: a ZIP whose extraction raises a generic
exception returns the `failed-exception` tag with a placeholder built
from the exception message — it does not reference the input filename. -/
theorem claim_C3_counterexample :
    extract_zip defaultIncludeExtensions exC3ZipEnv exC3Path =
      ("[Error processing ZIP file: disk full]".toList, "failed-exception".toList) ∧
    startsWith ("failed".toList) ("failed-exception".toList) = true ∧
    containsSub (baseName exC3Path)
      ("[Error processing ZIP file: disk full]".toList) = false := by
  refine ⟨by decide, by decide, by decide⟩

/-- Claim C3 (amended): every `failed*`-tagged result of a conversion or
expansion operation carries a non-empty bracketed placeholder text; the
placeholder references the original filename for the tags `failed`,
`failed-bad_zip` and `failed-parse`, while the `failed-exception` texts
embed the exception message instead. -/
theorem claim_C3_amended :
    (∀ (env : PdfEnv) (path t m : Str),
      convert_pdf_to_text env path = Except.ok (t, m) →
      startsWith ("failed".toList) m = true →
      BracketedPlaceholder t ∧ MentionsName (baseName path) t) ∧
    (∀ (run : ExtRes Str) (path t m : Str),
      convert_epub_to_text run path = Except.ok (t, m) →
      startsWith ("failed".toList) m = true →
      BracketedPlaceholder t ∧ MentionsName (baseName path) t) ∧
    (∀ (env : DocxEnv) (path t m : Str),
      convert_docx_to_text env path = Except.ok (t, m) →
      startsWith ("failed".toList) m = true →
      BracketedPlaceholder t ∧ MentionsName (baseName path) t) ∧
    (∀ (env : DocEnv) (path t m : Str),
      convert_doc_to_text env path = Except.ok (t, m) →
      startsWith ("failed".toList) m = true →
      BracketedPlaceholder t ∧ MentionsName (baseName path) t) ∧
    (∀ (env : RtfEnv) (path t m : Str),
      convert_rtf_to_text env path = Except.ok (t, m) →
      startsWith ("failed".toList) m = true →
      BracketedPlaceholder t ∧ MentionsName (baseName path) t) ∧
    (∀ (run : ExtRes Str) (path t m : Str),
      convert_txt_to_text run path = (t, m) →
      startsWith ("failed".toList) m = true →
      BracketedPlaceholder t ∧ MentionsName (baseName path) t) ∧
    (∀ (exts : List Str) (env : ZipEnv) (path t m : Str),
      extract_zip exts env path = (t, m) →
      startsWith ("failed".toList) m = true →
      BracketedPlaceholder t ∧
        (m = "failed-bad_zip".toList → MentionsName (baseName path) t)) ∧
    (∀ (exts : List Str) (env : EmailRunEnv) (path t m : Str),
      process_email exts env path = (t, m) →
      startsWith ("failed".toList) m = true →
      BracketedPlaceholder t ∧
        (m = "failed-parse".toList → MentionsName (baseName path) t)) := by
  refine ⟨?_, ?_, ?_, ?_, ?_, ?_, ?_, ?_⟩
  · intro env path t m heq hpre
    rcases convert_pdf_cases env path with ⟨t2, h⟩ | ⟨t2, h⟩ | ⟨t2, h⟩ | h | ⟨e, h⟩ <;>
      rw [h] at heq
    · simp only [Except.ok.injEq, Prod.mk.injEq] at heq
      obtain ⟨h1, h2⟩ := heq
      subst h2
      exact absurd hpre (by decide)
    · simp only [Except.ok.injEq, Prod.mk.injEq] at heq
      obtain ⟨h1, h2⟩ := heq
      subst h2
      exact absurd hpre (by decide)
    · simp only [Except.ok.injEq, Prod.mk.injEq] at heq
      obtain ⟨h1, h2⟩ := heq
      subst h2
      exact absurd hpre (by decide)
    · simp only [Except.ok.injEq, Prod.mk.injEq] at heq
      obtain ⟨h1, h2⟩ := heq
      subst h1
      exact ⟨bracketed_parts (r"[Failed to convert PDF file: ".toList)
          (baseName path) (r"]".toList) (by decide) (by decide),
        mentions_middle (r"[Failed to convert PDF file: ".toList)
          (baseName path) (r"]".toList)⟩
    · exact Except.noConfusion heq
  · intro run path t m heq hpre
    rcases convert_epub_cases run path with ⟨t2, h⟩ | h | ⟨e, h⟩ <;> rw [h] at heq
    · simp only [Except.ok.injEq, Prod.mk.injEq] at heq
      obtain ⟨h1, h2⟩ := heq
      subst h2
      exact absurd hpre (by decide)
    · simp only [Except.ok.injEq, Prod.mk.injEq] at heq
      obtain ⟨h1, h2⟩ := heq
      subst h1
      exact ⟨bracketed_parts (r"[Failed to convert EPUB file: ".toList)
          (baseName path) (r"]".toList) (by decide) (by decide),
        mentions_middle (r"[Failed to convert EPUB file: ".toList)
          (baseName path) (r"]".toList)⟩
    · exact Except.noConfusion heq
  · intro env path t m heq hpre
    rcases convert_docx_cases env path with ⟨t2, h⟩ | ⟨t2, h⟩ | h | ⟨e, h⟩ <;>
      rw [h] at heq
    · simp only [Except.ok.injEq, Prod.mk.injEq] at heq
      obtain ⟨h1, h2⟩ := heq
      subst h2
      exact absurd hpre (by decide)
    · simp only [Except.ok.injEq, Prod.mk.injEq] at heq
      obtain ⟨h1, h2⟩ := heq
      subst h2
      exact absurd hpre (by decide)
    · simp only [Except.ok.injEq, Prod.mk.injEq] at heq
      obtain ⟨h1, h2⟩ := heq
      subst h1
      exact ⟨bracketed_parts (r"[Failed to convert DOCX file: ".toList)
          (baseName path) (r"]".toList) (by decide) (by decide),
        mentions_middle (r"[Failed to convert DOCX file: ".toList)
          (baseName path) (r"]".toList)⟩
    · exact Except.noConfusion heq
  · intro env path t m heq hpre
    rcases convert_doc_cases env path with ⟨t2, m2, h⟩ | h | ⟨e, h⟩ <;> rw [h] at heq
    · simp only [Except.ok.injEq, Prod.mk.injEq] at heq
      obtain ⟨h1, h2⟩ := heq
      subst h2
      have hf : startsWith ("failed".toList) ("soffice+".toList ++ m2) = false := rfl
      rw [hf] at hpre
      exact Bool.noConfusion hpre
    · simp only [Except.ok.injEq, Prod.mk.injEq] at heq
      obtain ⟨h1, h2⟩ := heq
      subst h1
      exact ⟨bracketed_parts (r"[Failed to convert DOC file: ".toList)
          (baseName path) (r"]".toList) (by decide) (by decide),
        mentions_middle (r"[Failed to convert DOC file: ".toList)
          (baseName path) (r"]".toList)⟩
    · exact Except.noConfusion heq
  · intro env path t m heq hpre
    rcases convert_rtf_cases env path with ⟨t2, h⟩ | ⟨t2, h⟩ | ⟨t2, h⟩ | h | ⟨e, h⟩ <;>
      rw [h] at heq
    · simp only [Except.ok.injEq, Prod.mk.injEq] at heq
      obtain ⟨h1, h2⟩ := heq
      subst h2
      exact absurd hpre (by decide)
    · simp only [Except.ok.injEq, Prod.mk.injEq] at heq
      obtain ⟨h1, h2⟩ := heq
      subst h2
      exact absurd hpre (by decide)
    · simp only [Except.ok.injEq, Prod.mk.injEq] at heq
      obtain ⟨h1, h2⟩ := heq
      subst h2
      exact absurd hpre (by decide)
    · simp only [Except.ok.injEq, Prod.mk.injEq] at heq
      obtain ⟨h1, h2⟩ := heq
      subst h1
      exact ⟨bracketed_parts (r"[Failed to convert RTF file: ".toList)
          (baseName path) (r"]".toList) (by decide) (by decide),
        mentions_middle (r"[Failed to convert RTF file: ".toList)
          (baseName path) (r"]".toList)⟩
    · exact Except.noConfusion heq
  · intro run path t m heq hpre
    rcases convert_txt_cases run path with ⟨t2, h⟩ | h <;> rw [h] at heq
    · simp only [Prod.mk.injEq] at heq
      obtain ⟨h1, h2⟩ := heq
      subst h2
      exact absurd hpre (by decide)
    · simp only [Prod.mk.injEq] at heq
      obtain ⟨h1, h2⟩ := heq
      subst h1
      exact ⟨bracketed_parts (r"[Failed to read file: ".toList)
          (baseName path) (r"]".toList) (by decide) (by decide),
        mentions_middle (r"[Failed to read file: ".toList)
          (baseName path) (r"]".toList)⟩
  · intro exts env path t m heq hpre
    rcases extract_zip_cases exts env path with h | ⟨msg, h⟩ | h <;> rw [h] at heq
    · simp only [Prod.mk.injEq] at heq
      obtain ⟨h1, h2⟩ := heq
      subst h1
      subst h2
      refine ⟨bracketed_parts (r"[Error: ".toList) (baseName path)
          (r" is not a valid ZIP file]".toList) (by decide) (by decide), ?_⟩
      intro _
      exact mentions_middle (r"[Error: ".toList) (baseName path)
        (r" is not a valid ZIP file]".toList)
    · simp only [Prod.mk.injEq] at heq
      obtain ⟨h1, h2⟩ := heq
      subst h1
      subst h2
      refine ⟨bracketed_parts (r"[Error processing ZIP file: ".toList) msg
          (r"]".toList) (by decide) (by decide), ?_⟩
      intro hm
      exact absurd hm (by decide)
    · simp only [Prod.mk.injEq] at heq
      obtain ⟨h1, h2⟩ := heq
      subst h2
      have hf : startsWith ("failed".toList)
          ("zip_extract+".toList ++ joinPlus env.setIter) = false := rfl
      rw [hf] at hpre
      exact Bool.noConfusion hpre
  · intro exts env path t m heq hpre
    rcases process_email_cases exts env path with ⟨msg, h⟩ | h | ⟨content, h⟩ <;>
      rw [h] at heq
    · simp only [Prod.mk.injEq] at heq
      obtain ⟨h1, h2⟩ := heq
      subst h1
      subst h2
      refine ⟨bracketed_parts (r"[Error processing email file: ".toList) msg
          (r"]".toList) (by decide) (by decide), ?_⟩
      intro hm
      exact absurd hm (by decide)
    · simp only [Prod.mk.injEq] at heq
      obtain ⟨h1, h2⟩ := heq
      subst h1
      subst h2
      refine ⟨bracketed_parts (r"[Failed to parse email file: ".toList)
          (baseName path) (r"]".toList) (by decide) (by decide), ?_⟩
      intro _
      exact mentions_middle (r"[Failed to parse email file: ".toList)
        (baseName path) (r"]".toList)
    · simp only [Prod.mk.injEq] at heq
      obtain ⟨h1, h2⟩ := heq
      subst h2
      have hf : startsWith ("failed".toList) ("email+".toList ++
          underscoreLower (process_attachments env.fs).source) = false := rfl
      rw [hf] at hpre
      exact Bool.noConfusion hpre

/-- Claim C3 witness: the amended statement applied to a concretely
exhausted PDF conversion. -/
theorem claim_C3_witness :
    BracketedPlaceholder (pdfFailText exC3WitnessPath) ∧
    MentionsName (baseName exC3WitnessPath) (pdfFailText exC3WitnessPath) :=
  claim_C3_amended.1 exhaustedPdfEnv exC3WitnessPath (pdfFailText exC3WitnessPath)
    ("failed".toList) (by decide) (by decide)
